import Mathlib

/-! Round messenger: draw resolution and round-robin dispatch.

A shallow embedding of `cmd/roundmessenger/main.go`.

The program is sequential: `init` reads the environment, `main` walks the
rooms of the draw and hands every message to one of the sending identities.
A run is modelled by the list of calls it makes to its collaborators (the
`Event`s, in program order), the final value of `messageCounter`, and the
panic that ended it, if any (`bail` panics on every error it is given; an
index out of range and a division by zero are run-time panics).

The packages `db`, `util`, `multiroom`, `roundrunner`, `tabbycat` and `hermes`
are collaborators whose code is not part of the development: what they
return is a parameter of the model (`World`, `Options`).

`messageCounter` and the loop indices are Go `int`s (64 bit). They count
elements of slices held in memory, so they stay far below `2 ^ 63` and are
modelled by `Nat`.
-/

namespace Roundmessenger

/-! ## Data model -/

/-- A `disgord.Snowflake`: the chat platform's native address (an unsigned
64-bit number). -/
abbrev Snowflake := Nat

/-- An identifier of a round of the draw (an element of `rounds.Rounds`). -/
abbrev Round := String

/-- The fields of `multiroom.Category` that `main` reads. -/
structure Category where
  Url : String
  deriving DecidableEq, Repr

/-- The fields of `tabbycat.Room` that `main` reads. -/
structure Room where
  VenueId : String
  TeamIds : List String
  SideNames : List String
  ChairId : String
  PanellistIds : List String
  TraineeIds : List String
  deriving DecidableEq, Repr

/-- Modelled from the spec: `tabbycat.Venue` is declared outside the files at
hand; the spec describes a venue as an identifier and a display name. -/
structure Venue where
  Id : String
  Name : String
  deriving DecidableEq, Repr

/-- The draw client `*tabbycat.Tabbycat`, by what its methods return. -/
structure Tabbycat where
  GetDraw : Round → Except String (List Room)
  GetVenues : Except String (List Venue)
  PrivateUrlFromKey : String → String

/-- The participant directory `db.Database`, by what its two lookups return:
the chat handles and the URL keys, or an error. -/
structure Database where
  ParticipantsFromTeamId : String → Except String (List String × List String)
  DiscordFromParticipantIds : List String → Except String (List String × List String)

/-- The value `multiroom.Categories`, by what `Lookup` returns: a category
and an error (Go returns both, and `main` reads the category whatever the
error is). -/
structure Categories where
  Lookup : String → Category × Option String

/-- The global `opts` (the fields `main` reads). -/
structure Options where
  round : List Round
  db : Database
  botTokens : List String
  verbose : Bool
  categories : Categories

/-- The remaining collaborators of `main`: the draw client, the handle
parsers of package `util` and `roundrunner.BuildVenueMap` (the Go map is a
function to `Option`; a missing key reads as the zero value). -/
structure World where
  tabbycat : Tabbycat
  StringToSnowflake : String → Except String Snowflake
  StringsToSnowflakes : List String → Except String (List Snowflake)
  BuildVenueMap : List Venue → String → Option String

/-- A sending identity `*hermes.Hermes`, created from one bot token. -/
structure Hermes where
  BotToken : String
  deriving DecidableEq, Repr

/-- The calls a run makes to its collaborators, in program order. In
`sendMessage` the field `client` is the index into `clients` of the identity
that `SendMessage` is called on. -/
inductive Event where
  | getDraw (round : Round)
  | getVenues
  | printf (line : String)
  | lookup (venueName : String)
  | logPrint (line : String)
  | participantsFromTeamId (team : String)
  | stringsToSnowflakes (raws : List String)
  | discordFromParticipantIds (ids : List String)
  | stringToSnowflake (raw : String)
  | privateUrlFromKey (urlKey : String)
  | sendMessage (client : Nat) (snowflake : Snowflake) (message : String)
  | wait (client : Nat)
  deriving DecidableEq, Repr

/-- The outcome of running a piece of `main`: the calls made, the value of
`messageCounter` afterwards and the panic that stopped it, if any. -/
structure Run where
  events : List Event
  messageCounter : Nat
  panic : Option String
  deriving DecidableEq, Repr

/-- Sequencing: what follows `r` runs only when `r` did not panic. -/
def Run.andThen (r : Run) (k : Nat → Run) : Run :=
  match r.panic with
  | some _ => r
  | none => ⟨r.events ++ (k r.messageCounter).events, (k r.messageCounter).messageCounter,
      (k r.messageCounter).panic⟩

/-- A piece of straight-line code that makes the calls `events` and leaves
`messageCounter` alone. -/
def Run.emit (events : List Event) (counter : Nat) : Run := ⟨events, counter, none⟩

/-- A panic raised after the calls `events`. -/
def Run.abort (events : List Event) (counter : Nat) (msg : String) : Run :=
  ⟨events, counter, some msg⟩

/-- Go's `for j, x := range xs`, started at index `j`: the body runs for every
element in order and a panic in the body ends the loop. -/
def forRange {α : Type} (body : Nat → α → Nat → Run) : Nat → List α → Nat → Run
  | _, [], counter => Run.emit [] counter
  | j, x :: xs, counter => (body j x counter).andThen (forRange body (j + 1) xs)

/-! ## `init`: the token list (main.go, lines 67-76) -/

/-- The process environment after `godotenv.Load`: finitely many variables;
`os.Getenv` gives the empty string for a variable that is not set. -/
def Getenv (environ : List (String × String)) (key : String) : String :=
  match environ.lookup key with
  | some value => value
  | none => ""

/-- The name `fmt.Sprintf("DISCORD_HELPER_%v", i)`. -/
def helperName (i : Nat) : String := "DISCORD_HELPER_" ++ toString i

/-- The loop `for i := 1; true; i++` of `init`, from index `i` on with the
tokens collected so far; `none` when `fuel` iterations did not reach the
`break`. -/
def helperLoop (environ : List (String × String)) : Nat → Nat → List String → Option (List String)
  | 0, _, _ => none
  | fuel + 1, i, botTokens =>
    let token := Getenv environ (helperName i)
    if token = "" then some botTokens
    else helperLoop environ fuel (i + 1) (botTokens ++ [token])

/-- The part of `init` that builds `opts.botTokens`. An environment of `n`
variables holds at most `n` helper tokens, so `n + 1` iterations reach the
`break`. -/
def initBotTokens (environ : List (String × String)) : Option (List String) :=
  helperLoop environ (environ.length + 1) 1 [Getenv environ "DISCORD_BOT_TOKEN"]

/-! ## `main` -/

/-- The loop of lines 83-93: one identity for every token, in order. -/
def newClients (botTokens : List String) : List Hermes := botTokens.map Hermes.mk

/-- The function `verbose`: prints only when `opts.verbose` is set. -/
def verbose (o : Options) (line : String) (counter : Nat) : Run :=
  if o.verbose then Run.emit [Event.printf line] counter else Run.emit [] counter

/-- The function `addLinks` (lines 180-193). -/
def addLinks (tabbycat : Tabbycat) (venueUrl : String) (urlKey : String) : String :=
  let links := if venueUrl ≠ "" then "\n\nThe link to your Zoom room is " ++ venueUrl ++ "." else ""
  if urlKey ≠ "" then
    links ++ "\n\nYour private URL is " ++ tabbycat.PrivateUrlFromKey urlKey ++ "."
  else links

/-- The collaborator calls `addLinks` makes: the private URL is asked for
only when the key is not empty. -/
def addLinksCalls (urlKey : String) : List Event :=
  if urlKey ≠ "" then [Event.privateUrlFromKey urlKey] else []

/-- The text of the run-time panic for the index `i` into a slice of length
`n`. -/
def indexPanic (i n : Nat) : String :=
  "runtime error: index out of range [" ++ toString i ++ "] with length " ++ toString n

/-- Lines 136-137 and 168-169: the message is handed to
`clients[messageCounter%len(clients)]` and the counter goes up by one. -/
def sendMessage (clients : List Hermes) (snowflake : Snowflake) (message : String)
    (counter : Nat) : Run :=
  if clients.length = 0 then Run.abort [] counter "runtime error: integer divide by zero"
  else
    match clients[counter % clients.length]? with
    | none => Run.abort [] counter (indexPanic (counter % clients.length) clients.length)
    | some _ => ⟨[Event.sendMessage (counter % clients.length) snowflake message], counter + 1, none⟩

/-- The text of a speaker's message before the links (line 130). -/
def speakerText (sideName venueName : String) : String :=
  "In this round, you will be speaking in **" ++ sideName ++ "** in room **" ++ venueName ++ "**."

/-- The body of the loop over `snowflakes` (lines 129-137), for member `j`
of the team at index `i`. The links text is built first: `urlKeys[j]` is read
and `addLinks` called before `room.SideNames[i]` is read; an index out of
range panics before the message is handed over. -/
def speakerBody (w : World) (clients : List Hermes) (room : Room) (venueName : String)
    (category : Category) (i : Nat) (urlKeys : List String) (j : Nat) (snowflake : Snowflake)
    (counter : Nat) : Run :=
  match urlKeys[j]? with
  | none => Run.abort [] counter (indexPanic j urlKeys.length)
  | some urlKey =>
    match room.SideNames[i]? with
    | none => Run.abort (addLinksCalls urlKey) counter (indexPanic i room.SideNames.length)
    | some sideName =>
      (Run.emit (addLinksCalls urlKey) counter).andThen
        (sendMessage clients snowflake
          (speakerText sideName venueName ++ addLinks w.tabbycat category.Url urlKey))

/-- The body of the loop over `room.TeamIds` (lines 122-138). -/
def teamBody (w : World) (o : Options) (clients : List Hermes) (room : Room) (venueName : String)
    (category : Category) (i : Nat) (team : String) (counter : Nat) : Run :=
  match o.db.ParticipantsFromTeamId team with
  | .error e => Run.abort [Event.participantsFromTeamId team] counter e
  | .ok (discords, urlKeys) =>
    match w.StringsToSnowflakes discords with
    | .error e =>
      Run.abort [Event.participantsFromTeamId team, Event.stringsToSnowflakes discords] counter e
    | .ok snowflakes =>
      (Run.emit [Event.participantsFromTeamId team, Event.stringsToSnowflakes discords]
        counter).andThen
        (forRange (speakerBody w clients room venueName category i urlKeys) 0 snowflakes)

/-- The position of the judge at index `j` of `judgeIds`, for `n` panellists
(lines 154-159). -/
def position (j n : Nat) : String :=
  if j = 0 then "the chair"
  else if j > n then "a trainee"
  else "a panellist"

/-- The text of a judge's message before the links (line 162). -/
def judgeText (label venueName : String) : String :=
  "In this round, you will be judging as **" ++ label ++ "** in room **" ++ venueName ++ "**."

/-- The list `judgeIds` of line 141. -/
def judgeIds (room : Room) : List String :=
  [room.ChairId] ++ (room.PanellistIds ++ room.TraineeIds)

/-- The body of the loop over `discords` (lines 146-169). -/
def judgeBody (w : World) (clients : List Hermes) (room : Room) (venueName : String)
    (category : Category) (urlKeys : List String) (j : Nat) (discord : String)
    (counter : Nat) : Run :=
  if discord = "" then
    match (judgeIds room)[j]? with
    | none => Run.abort [] counter (indexPanic j (judgeIds room).length)
    | some id => Run.emit [Event.logPrint ("Adjudicator " ++ id ++ " has no discord ID.\n")] counter
  else
    match w.StringToSnowflake discord with
    | .error e => Run.abort [Event.stringToSnowflake discord] counter e
    | .ok snowflake =>
      match urlKeys[j]? with
      | none => Run.abort [Event.stringToSnowflake discord] counter (indexPanic j urlKeys.length)
      | some urlKey =>
        (Run.emit (Event.stringToSnowflake discord :: addLinksCalls urlKey) counter).andThen
          (sendMessage clients snowflake
            (judgeText (position j room.PanellistIds.length) venueName
              ++ addLinks w.tabbycat category.Url urlKey))

/-- Lines 141-170: the judges of a room. -/
def judgesPart (w : World) (o : Options) (clients : List Hermes) (room : Room)
    (venueName : String) (category : Category) (counter : Nat) : Run :=
  match o.db.DiscordFromParticipantIds (judgeIds room) with
  | .error e => Run.abort [Event.discordFromParticipantIds (judgeIds room)] counter e
  | .ok (discords, urlKeys) =>
    (Run.emit [Event.discordFromParticipantIds (judgeIds room)] counter).andThen
      (forRange (judgeBody w clients room venueName category urlKeys) 0 discords)

/-- Lines 121-139: the teams of a room. -/
def teamsPart (w : World) (o : Options) (clients : List Hermes) (room : Room)
    (venueName : String) (category : Category) (counter : Nat) : Run :=
  forRange (teamBody w o clients room venueName category) 0 room.TeamIds counter

/-- Line 115: `venueMap[room.VenueId]`, the empty string for a missing key. -/
def venueNameOf (venueMap : String → Option String) (room : Room) : String :=
  (venueMap room.VenueId).getD ""

/-- Lines 116-119: the call of `Lookup`, and the log line when it fails. -/
def lookupCalls (o : Options) (venueName : String) : List Event :=
  match (o.categories.Lookup venueName).2 with
  | some e => [Event.lookup venueName, Event.logPrint e]
  | none => [Event.lookup venueName]

/-- The body of the loop over `rooms` (lines 115-172). -/
def roomBody (w : World) (o : Options) (clients : List Hermes)
    (venueMap : String → Option String) (room : Room) (counter : Nat) : Run :=
  (Run.emit (lookupCalls o (venueNameOf venueMap room)) counter).andThen fun c1 =>
  (teamsPart w o clients room (venueNameOf venueMap room)
    (o.categories.Lookup (venueNameOf venueMap room)).1 c1).andThen fun c2 =>
  (judgesPart w o clients room (venueNameOf venueMap room)
    (o.categories.Lookup (venueNameOf venueMap room)).1 c2).andThen
  (verbose o ("Queued messages for room " ++ venueNameOf venueMap room ++ "\n"))

/-- Lines 112-173: the loop over the rooms, with `messageCounter` starting
at `counter`. -/
def roomsPart (w : World) (o : Options) (clients : List Hermes)
    (venueMap : String → Option String) (rooms : List Room) (counter : Nat) : Run :=
  forRange (fun _ room => roomBody w o clients venueMap room) 0 rooms counter

/-- Lines 98-102: the draws of the rounds, appended to `rooms`; the calls made
and either the panic or the rooms. -/
def drawLoop (tabbycat : Tabbycat) : List Round → List Room → List Event × Except String (List Room)
  | [], rooms => ([], .ok rooms)
  | round :: rest, rooms =>
    match tabbycat.GetDraw round with
    | .error e => ([Event.getDraw round], .error e)
    | .ok r =>
      ((Event.getDraw round) :: (drawLoop tabbycat rest (rooms ++ r)).1,
        (drawLoop tabbycat rest (rooms ++ r)).2)

/-- Lines 175-177: `Wait` on every identity. -/
def waitCalls (clients : List Hermes) : List Event :=
  (List.range clients.length).map Event.wait

/-- The function `main` (lines 81-178). -/
def main (w : World) (o : Options) : Run :=
  match drawLoop w.tabbycat o.round [] with
  | (fetched, .error e) => Run.abort fetched 0 e
  | (fetched, .ok rooms) =>
    (Run.emit fetched 0).andThen fun c0 =>
    (verbose o ("Fetched " ++ toString rooms.length ++ " pairings\n") c0).andThen fun c1 =>
    match w.tabbycat.GetVenues with
    | .error e => Run.abort [Event.getVenues] c1 e
    | .ok venues =>
      (Run.emit [Event.getVenues] c1).andThen fun c2 =>
      (verbose o ("Fetched " ++ toString venues.length ++ " venues\n") c2).andThen fun c3 =>
      (roomsPart w o (newClients o.botTokens) (w.BuildVenueMap venues) rooms c3).andThen
      (Run.emit (waitCalls (newClients o.botTokens)))

/-! ## Reading a run -/

/-- The identities of the messages submitted, in order of submission. -/
def sentTo : List Event → List Nat
  | [] => []
  | Event.sendMessage client _ _ :: rest => client :: sentTo rest
  | _ :: rest => sentTo rest

/-- The messages submitted, as recipient and body, in order of submission. -/
def sent : List Event → List (Snowflake × String)
  | [] => []
  | Event.sendMessage _ snowflake message :: rest => (snowflake, message) :: sent rest
  | _ :: rest => sent rest

/-- The run `r`, started with `messageCounter = c` and `N` identities, keeps
count: the counter went up by the number of messages submitted, and the
message at position `k` of the run went to identity `(c + k) % N`. -/
def Tracks (N c : Nat) (r : Run) : Prop :=
  r.messageCounter = c + (sentTo r.events).length ∧
  sentTo r.events = (List.range' c (sentTo r.events).length).map (fun k => k % N)

/-! ## The category lookup, from the spec -/

/-- Modelled from the spec: the rules of `multiroom.Categories` are declared
outside the files at hand. A rule is a pattern over venue names (given by the
names it matches) and the category it stands for. -/
structure CategoryRule where
  pattern : String → Bool
  category : Category

/-- Modelled from the spec: `multiroom.Categories.Lookup` is declared outside
the files at hand. The spec: the rules are tried in their order and the first
whose pattern matches the venue name gives the category; when no rule matches
the result is "no category", whose URL is empty, together with an error that
callers log; an empty venue name takes the same "no match" path. -/
def specLookup (rules : List CategoryRule) (venueName : String) : Category × Option String :=
  if venueName = "" then (⟨""⟩, some ("no category matches venue " ++ venueName))
  else
    match rules.find? (fun r => r.pattern venueName) with
    | some r => (r.category, none)
    | none => (⟨""⟩, some ("no category matches venue " ++ venueName))

/-! ## The order of resolution and dispatch -/

/-- The calls of resolution: directory lookups, handle parses and private-URL
derivations. -/
def isResolution : Event → Bool
  | Event.participantsFromTeamId _ => true
  | Event.discordFromParticipantIds _ => true
  | Event.stringsToSnowflakes _ => true
  | Event.stringToSnowflake _ => true
  | Event.privateUrlFromKey _ => true
  | _ => false

/-- The calls that submit a message. -/
def isSend : Event → Bool
  | Event.sendMessage _ _ _ => true
  | _ => false

/-- Resolution completes before dispatch begins: no call of resolution comes
after a submitted message. -/
def ResolutionBeforeDispatch (events : List Event) : Prop :=
  ∀ pre e post, events = pre ++ e :: post → isSend e = true →
    ∀ x ∈ post, isResolution x = false

/-- The message `message` for `snowflake` is resolved by the calls `ctx`:
they hold the directory lookup and the handle parse that gave the recipient
(member `j` of a team, or judge `j` of a room), and the derivation of the
private URL from that member's URL key when the key is not empty; the body
ends with the links text of that key. -/
def Resolved (w : World) (o : Options) (ctx : List Event) (snowflake : Snowflake)
    (message : String) : Prop :=
  (∃ (team : String) (discords urlKeys : List String) (snowflakes : List Snowflake) (j : Nat)
      (urlKey text url : String),
    Event.participantsFromTeamId team ∈ ctx ∧
    o.db.ParticipantsFromTeamId team = .ok (discords, urlKeys) ∧
    Event.stringsToSnowflakes discords ∈ ctx ∧
    w.StringsToSnowflakes discords = .ok snowflakes ∧
    snowflakes[j]? = some snowflake ∧ urlKeys[j]? = some urlKey ∧
    (urlKey ≠ "" → Event.privateUrlFromKey urlKey ∈ ctx) ∧
    message = text ++ addLinks w.tabbycat url urlKey) ∨
  (∃ (ids discords urlKeys : List String) (j : Nat) (discord urlKey text url : String),
    Event.discordFromParticipantIds ids ∈ ctx ∧
    o.db.DiscordFromParticipantIds ids = .ok (discords, urlKeys) ∧
    discords[j]? = some discord ∧
    Event.stringToSnowflake discord ∈ ctx ∧
    w.StringToSnowflake discord = .ok snowflake ∧ urlKeys[j]? = some urlKey ∧
    (urlKey ≠ "" → Event.privateUrlFromKey urlKey ∈ ctx) ∧
    message = text ++ addLinks w.tabbycat url urlKey)

/-- What the call `e` needs of the calls `ctx` made before it: a submitted
message is resolved by them, and the draw and the venues are fetched before
any message is submitted. -/
def Good (w : World) (o : Options) (ctx : List Event) : Event → Prop
  | Event.sendMessage _ snowflake message => Resolved w o ctx snowflake message
  | Event.getDraw _ => sentTo ctx = []
  | Event.getVenues => sentTo ctx = []
  | _ => True

/-- Every call of `events`, made after the calls `ctx`, is `Good` for the
calls before it. -/
def Safe (w : World) (o : Options) : List Event → List Event → Prop
  | _, [] => True
  | ctx, e :: rest => Good w o ctx e ∧ Safe w o (ctx ++ [e]) rest

/-! ## Sample inputs -/

/-- Handles parsed one by one with `parse`, in order; the first failure is
the result. -/
def parseEach (parse : String → Except String Snowflake) :
    List String → Except String (List Snowflake)
  | [] => .ok []
  | raw :: rest =>
    match parse raw with
    | .error e => .error e
    | .ok s =>
      match parseEach parse rest with
      | .error e => .error e
      | .ok ss => .ok (s :: ss)

/-- A sample parser of handles: a table of three speakers and four judges. -/
def sampleStringToSnowflake (raw : String) : Except String Snowflake :=
  match [("101", 101), ("102", 102), ("201", 201), ("301", 301), ("302", 302), ("303", 303),
      ("304", 304)].lookup raw with
  | some n => .ok n
  | none => .error ("invalid snowflake: " ++ raw)

/-- A sample room in venue 7: two teams, a chair, two panellists, a trainee. -/
def sampleRoom : Room := ⟨"7", ["t1", "t2"], ["Proposition", "Opposition"], "c1", ["p1", "p2"], ["j1"]⟩

/-- A sample draw client: the sample room is the whole draw. -/
def sampleTabbycat : Tabbycat where
  GetDraw := fun _ => .ok [sampleRoom]
  GetVenues := .ok [⟨"7", "Room A"⟩]
  PrivateUrlFromKey := fun key => "https://tab/private/" ++ key

/-- The sample world with the handle parser `parse`: handle lists are
parsed one by one. -/
def worldOf (parse : String → Except String Snowflake) : World where
  tabbycat := sampleTabbycat
  StringToSnowflake := parse
  StringsToSnowflakes := parseEach parse
  BuildVenueMap := fun venues id => (venues.find? (fun v => v.Id = id)).map Venue.Name

/-- The sample world. -/
def sampleWorld : World := worldOf sampleStringToSnowflake

/-- The venue map of the sample world. -/
def sampleVenueMap : String → Option String := sampleWorld.BuildVenueMap [⟨"7", "Room A"⟩]

/-- A sample directory: a team of two speakers and a team of one, the second
without URL key; a chair, two panellists and a trainee. -/
def sampleDb : Database where
  ParticipantsFromTeamId := fun team =>
    if team = "t1" then .ok (["101", "102"], ["k1", "k2"])
    else if team = "t2" then .ok (["201"], [""])
    else .error "no such team"
  DiscordFromParticipantIds := fun ids =>
    if ids = ["c1", "p1", "p2", "j1"] then
      .ok (["301", "302", "303", "304"], ["k5", "k6", "k7", "k8"])
    else .error "no such participants"

/-- Sample options: three identities, one round, a category for every venue. -/
def sampleOptions : Options where
  round := ["1"]
  db := sampleDb
  botTokens := ["primary", "helper1", "helper2"]
  verbose := false
  categories := ⟨fun _ => (⟨"https://zoom/a"⟩, none)⟩

/-- A parser that accepts the handle 42 only. -/
def strictParse (raw : String) : Except String Snowflake :=
  if raw = "42" then .ok 42 else .error ("invalid snowflake: " ++ raw)

/-- A parser that reads the empty handle as snowflake 0. -/
def lenientParse (raw : String) : Except String Snowflake :=
  if raw = "42" then .ok 42 else if raw = "" then .ok 0 else .error ("invalid snowflake: " ++ raw)

/-- A directory in which the first member of team t1 has no chat handle and
the trainee j2 has none either. -/
def gapDb : Database where
  ParticipantsFromTeamId := fun team =>
    if team = "t1" then .ok (["", "42"], ["k1", "k2"]) else .error "no such team"
  DiscordFromParticipantIds := fun ids =>
    if ids = ["c1", "j2"] then .ok (["42", ""], ["k5", "k6"]) else .error "no such participants"

/-- Options over `gapDb`: one identity and no category rule at all. -/
def gapOptions : Options where
  round := ["1"]
  db := gapDb
  botTokens := ["primary"]
  verbose := false
  categories := ⟨specLookup []⟩

/-- A room with one team, a chair and one trainee, in a venue (9) that the
sample venue list does not hold. -/
def gapRoom : Room := ⟨"9", ["t1"], ["Proposition"], "c1", [], ["j2"]⟩

/-! ## Theorems -/

/-! ### The position label -/

lemma position_table (j n : Nat) :
    (j = 0 → position j n = "the chair") ∧
    (1 ≤ j → j ≤ n → position j n = "a panellist") ∧
    (n < j → position j n = "a trainee") := by
  refine ⟨?_, ?_, ?_⟩
  · intro h; simp [position, h]
  · intro h1 h2
    have h0 : j ≠ 0 := by omega
    have h3 : ¬ j > n := by omega
    simp [position, h0, h3]
  · intro h
    have h0 : j ≠ 0 := by omega
    simp [position, h0, h]

/-! ### The links text -/

lemma addLinks_table (tabbycat : Tabbycat) (u t : String) :
    (u = "" → t = "" → addLinks tabbycat u t = "") ∧
    (u ≠ "" → t = "" → addLinks tabbycat u t = "\n\nThe link to your Zoom room is " ++ u ++ ".") ∧
    (u = "" → t ≠ "" →
      addLinks tabbycat u t = "\n\nYour private URL is " ++ tabbycat.PrivateUrlFromKey t ++ ".") ∧
    (u ≠ "" → t ≠ "" →
      addLinks tabbycat u t = ("\n\nThe link to your Zoom room is " ++ u ++ ".") ++
        ("\n\nYour private URL is " ++ tabbycat.PrivateUrlFromKey t ++ ".")) := by
  refine ⟨?_, ?_, ?_, ?_⟩
  · intro hu ht; simp [addLinks, hu, ht]
  · intro hu ht; simp [addLinks, hu, ht]
  · intro hu ht; simp [addLinks, hu, ht]
  · intro hu ht
    simp only [addLinks, ne_eq, hu, ht, not_false_eq_true, if_true, String.append_assoc]

/-! ### Sequencing and loops -/

lemma sentTo_append (a b : List Event) : sentTo (a ++ b) = sentTo a ++ sentTo b := by
  induction a with
  | nil => rfl
  | cons e a ih => cases e <;> simp [sentTo, ih]

lemma sent_append (a b : List Event) : sent (a ++ b) = sent a ++ sent b := by
  induction a with
  | nil => rfl
  | cons e a ih => cases e <;> simp [sent, ih]

lemma andThen_of_panic {r : Run} {msg : String} (k : Nat → Run) (h : r.panic = some msg) :
    r.andThen k = r := by
  simp [Run.andThen, h]

lemma andThen_of_ok {r : Run} (k : Nat → Run) (h : r.panic = none) :
    r.andThen k = ⟨r.events ++ (k r.messageCounter).events, (k r.messageCounter).messageCounter,
      (k r.messageCounter).panic⟩ := by
  simp [Run.andThen, h]

lemma emit_andThen (evs : List Event) (c : Nat) (k : Nat → Run) :
    (Run.emit evs c).andThen k = ⟨evs ++ (k c).events, (k c).messageCounter, (k c).panic⟩ := by
  simp [Run.andThen, Run.emit]

/-! ### The counter invariant -/

lemma tracks_silent (N c : Nat) (evs : List Event) (p : Option String) (h : sentTo evs = []) :
    Tracks N c ⟨evs, c, p⟩ := by
  simp [Tracks, h]

lemma tracks_andThen {N c : Nat} {r : Run} {k : Nat → Run} (hr : Tracks N c r)
    (hk : ∀ c1, Tracks N c1 (k c1)) : Tracks N c (r.andThen k) := by
  cases h : r.panic with
  | some msg => rw [andThen_of_panic k h]; exact hr
  | none =>
    rw [andThen_of_ok k h]
    obtain ⟨h1, h2⟩ := hr
    obtain ⟨h3, h4⟩ := hk r.messageCounter
    refine ⟨?_, ?_⟩
    · simp only [sentTo_append, List.length_append]; omega
    · simp only [sentTo_append, List.length_append]
      rw [Nat.add_comm (sentTo r.events).length, ← List.range'_append_1, List.map_append, ← h2,
        ← h1, ← h4]

lemma tracks_forRange {α : Type} {N : Nat} {body : Nat → α → Nat → Run}
    (hb : ∀ j x c, Tracks N c (body j x c)) :
    ∀ (xs : List α) (j c : Nat), Tracks N c (forRange body j xs c) := by
  intro xs
  induction xs with
  | nil => intro j c; exact tracks_silent N c [] none rfl
  | cons x xs ih => intro j c; exact tracks_andThen (hb j x c) (fun c1 => ih (j + 1) c1)

lemma sentTo_addLinksCalls (urlKey : String) : sentTo (addLinksCalls urlKey) = [] := by
  unfold addLinksCalls; split <;> rfl

lemma sendMessage_eq (clients : List Hermes) (h : 0 < clients.length) (s : Snowflake)
    (m : String) (c : Nat) :
    sendMessage clients s m c = ⟨[Event.sendMessage (c % clients.length) s m], c + 1, none⟩ := by
  have h0 : clients.length ≠ 0 := by omega
  have hlt : c % clients.length < clients.length := Nat.mod_lt _ h
  simp [sendMessage, h0, List.getElem?_eq_getElem hlt]

lemma tracks_sendMessage (clients : List Hermes) (s : Snowflake) (m : String) (c : Nat) :
    Tracks clients.length c (sendMessage clients s m c) := by
  rcases Nat.eq_zero_or_pos clients.length with h | h
  · simp only [sendMessage, h, if_true]; exact tracks_silent _ c [] _ rfl
  · rw [sendMessage_eq clients h]; simp [Tracks, sentTo, List.range']

lemma tracks_speakerBody (w : World) (clients : List Hermes) (room : Room) (venueName : String)
    (category : Category) (i : Nat) (urlKeys : List String) (j : Nat) (s : Snowflake) (c : Nat) :
    Tracks clients.length c (speakerBody w clients room venueName category i urlKeys j s c) := by
  unfold speakerBody
  split
  · exact tracks_silent _ c [] _ rfl
  · split
    · exact tracks_silent _ c _ _ (sentTo_addLinksCalls _)
    · exact tracks_andThen (tracks_silent _ c _ none (sentTo_addLinksCalls _))
        (fun c1 => tracks_sendMessage clients _ _ c1)

lemma tracks_teamBody (w : World) (o : Options) (clients : List Hermes) (room : Room)
    (venueName : String) (category : Category) (i : Nat) (team : String) (c : Nat) :
    Tracks clients.length c (teamBody w o clients room venueName category i team c) := by
  unfold teamBody
  split
  · exact tracks_silent _ c _ _ rfl
  · split
    · exact tracks_silent _ c _ _ rfl
    · exact tracks_andThen (tracks_silent _ c _ none rfl)
        (fun c1 => tracks_forRange (fun j x c2 => tracks_speakerBody w clients room venueName
          category i _ j x c2) _ 0 c1)

lemma tracks_judgeBody (w : World) (clients : List Hermes) (room : Room) (venueName : String)
    (category : Category) (urlKeys : List String) (j : Nat) (discord : String) (c : Nat) :
    Tracks clients.length c (judgeBody w clients room venueName category urlKeys j discord c) := by
  unfold judgeBody
  split
  · split
    · exact tracks_silent _ c [] _ rfl
    · exact tracks_silent _ c _ _ rfl
  · split
    · exact tracks_silent _ c _ _ rfl
    · split
      · exact tracks_silent _ c _ _ rfl
      · refine tracks_andThen (tracks_silent _ c _ none ?_)
          (fun c1 => tracks_sendMessage clients _ _ c1)
        simp [sentTo, sentTo_addLinksCalls]

lemma tracks_judgesPart (w : World) (o : Options) (clients : List Hermes) (room : Room)
    (venueName : String) (category : Category) (c : Nat) :
    Tracks clients.length c (judgesPart w o clients room venueName category c) := by
  unfold judgesPart
  split
  · exact tracks_silent _ c _ _ rfl
  · exact tracks_andThen (tracks_silent _ c _ none rfl)
      (fun c1 => tracks_forRange (fun j x c2 => tracks_judgeBody w clients room venueName
        category _ j x c2) _ 0 c1)

lemma tracks_verbose (N : Nat) (o : Options) (line : String) (c : Nat) :
    Tracks N c (verbose o line c) := by
  unfold verbose
  split
  · exact tracks_silent _ c _ _ rfl
  · exact tracks_silent _ c _ _ rfl

lemma sentTo_lookupCalls (o : Options) (venueName : String) :
    sentTo (lookupCalls o venueName) = [] := by
  unfold lookupCalls; split <;> rfl

lemma tracks_roomBody (w : World) (o : Options) (clients : List Hermes)
    (venueMap : String → Option String) (room : Room) (c : Nat) :
    Tracks clients.length c (roomBody w o clients venueMap room c) := by
  unfold roomBody
  refine tracks_andThen (tracks_silent _ c _ none (sentTo_lookupCalls _ _)) (fun c1 => ?_)
  refine tracks_andThen (tracks_forRange (fun j x c2 => tracks_teamBody w o clients room _ _
    j x c2) _ 0 c1) (fun c2 => ?_)
  exact tracks_andThen (tracks_judgesPart w o clients room _ _ c2)
    (fun c3 => tracks_verbose _ o _ c3)

lemma tracks_roomsPart (w : World) (o : Options) (clients : List Hermes)
    (venueMap : String → Option String) (rooms : List Room) (c : Nat) :
    Tracks clients.length c (roomsPart w o clients venueMap rooms c) :=
  tracks_forRange (fun _ room c1 => tracks_roomBody w o clients venueMap room c1) rooms 0 c

lemma sentTo_drawLoop (tabbycat : Tabbycat) (rounds : List Round) :
    ∀ rooms, sentTo (drawLoop tabbycat rounds rooms).1 = [] := by
  induction rounds with
  | nil => intro rooms; rfl
  | cons round rest ih =>
    intro rooms
    unfold drawLoop
    split
    · rfl
    · simp [sentTo, ih]

lemma sentTo_waitCalls (clients : List Hermes) : sentTo (waitCalls clients) = [] := by
  unfold waitCalls
  induction List.range clients.length with
  | nil => rfl
  | cons k ks ih => simpa [sentTo] using ih

lemma tracks_main (w : World) (o : Options) : Tracks o.botTokens.length 0 (main w o) := by
  have hlen : (newClients o.botTokens).length = o.botTokens.length := by simp [newClients]
  unfold main
  split
  · next fetched e heq =>
    have := sentTo_drawLoop w.tabbycat o.round []
    rw [heq] at this
    exact tracks_silent _ 0 _ _ this
  · next fetched rooms heq =>
    have hf := sentTo_drawLoop w.tabbycat o.round []
    rw [heq] at hf
    refine tracks_andThen (tracks_silent _ 0 _ none hf) (fun c0 => ?_)
    refine tracks_andThen (tracks_verbose _ o _ c0) (fun c1 => ?_)
    split
    · exact tracks_silent _ c1 _ _ rfl
    · refine tracks_andThen (tracks_silent _ c1 _ none rfl) (fun c2 => ?_)
      refine tracks_andThen (tracks_verbose _ o _ c2) (fun c3 => ?_)
      rw [← hlen]
      exact tracks_andThen (tracks_roomsPart w o _ _ _ c3)
        (fun c4 => tracks_silent _ c4 _ none (sentTo_waitCalls _))

/-! ### Round robin -/

lemma getElem?_range_mod (N M k : Nat) :
    ((List.range M).map (fun k => k % N))[k]? = if k < M then some (k % N) else none := by
  by_cases h : k < M
  · simp [h, List.getElem?_range h]
  · simp [h, List.getElem?_eq_none (l := List.range M) (by simpa using h)]

lemma count_range_mod (N M i : Nat) (hN : 0 < N) (hi : i < N) :
    ((List.range M).map (fun k => k % N)).count i = M / N + if i < M % N then 1 else 0 := by
  have h1 : ((List.range M).map (fun k => k % N)).count i
      = Nat.count (fun k => k ≡ i [MOD N]) M := by
    rw [List.count_eq_countP, List.countP_map, Nat.count]
    apply List.countP_congr
    intro k _
    simp [Nat.ModEq, Nat.mod_eq_of_lt hi]
  rw [h1, Nat.count_modEq_card M hN i, Nat.mod_eq_of_lt hi]

lemma floor_or_ceil (N M x : Nat) (hN : 0 < N)
    (hx : x = M / N + if x0 < M % N then 1 else 0) :
    x = M / N ∨ x = (M + N - 1) / N := by
  by_cases h : x0 < M % N
  · right
    rw [hx, if_pos h]
    have hM : N * (M / N) + M % N = M := Nat.div_add_mod M N
    have hr : M % N < N := Nat.mod_lt _ hN
    have e1 : (M / N + 1) * N = N * (M / N) + N := by ring
    have e2 : (M / N + 1 + 1) * N = N * (M / N) + N + N := by ring
    symm
    apply Nat.div_eq_of_lt_le
    · rw [e1]; omega
    · rw [e2]; omega
  · left
    rw [hx, if_neg h]; rfl

lemma sentTo_main (w : World) (o : Options) :
    sentTo (main w o).events =
      (List.range (sentTo (main w o).events).length).map (fun k => k % o.botTokens.length) := by
  have h := (tracks_main w o).2
  rw [List.range_eq_range']
  exact h

/-- C2: round-robin dispatch: in every run of `main`, the message at emission
position k (speakers and judges of all rooms counted together) is submitted to
identity k mod N; so identity i receives exactly the positions i, i+N, i+2N, ...
below the number M of messages, which are floor(M/N) or ceil(M/N) many. The
sample run with N = 3 emits M = 7 messages, to identities 0,1,2,0,1,2,0. -/
theorem round_robin_dispatch (w : World) (o : Options) :
    (∀ k, k < (sentTo (main w o).events).length →
      (sentTo (main w o).events)[k]? = some (k % o.botTokens.length)) ∧
    (∀ i k, i < o.botTokens.length →
      ((sentTo (main w o).events)[k]? = some i ↔
        (k < (sentTo (main w o).events).length ∧ ∃ t, k = i + t * o.botTokens.length))) ∧
    (∀ i, i < o.botTokens.length →
      (sentTo (main w o).events).count i
          = (sentTo (main w o).events).length / o.botTokens.length ∨
      (sentTo (main w o).events).count i
          = ((sentTo (main w o).events).length + o.botTokens.length - 1) / o.botTokens.length) ∧
    sentTo (main sampleWorld sampleOptions).events = [0, 1, 2, 0, 1, 2, 0] := by
  have hmain := sentTo_main w o
  generalize o.botTokens.length = N at hmain
  obtain ⟨M, hM⟩ : ∃ M, sentTo (main w o).events = (List.range M).map (fun k => k % N) :=
    ⟨_, hmain⟩
  rw [hM]
  simp only [List.length_map, List.length_range]
  refine ⟨?_, ?_, ?_, ?_⟩
  · intro k hk
    rw [getElem?_range_mod, if_pos hk]
  · intro i k hi
    rw [getElem?_range_mod]
    by_cases hk : k < M
    · simp only [hk, if_true, true_and, Option.some.injEq]
      constructor
      · intro h
        refine ⟨k / N, ?_⟩
        rw [← h, Nat.mul_comm]
        exact (Nat.mod_add_div k N).symm
      · rintro ⟨t, rfl⟩
        rw [Nat.add_mul_mod_self_right, Nat.mod_eq_of_lt hi]
    · simp [hk]
  · intro i hi
    have hN : 0 < N := by omega
    exact floor_or_ceil N M _ hN (count_range_mod N M i hN hi)
  · decide

/-! ### The token list of `init` -/

lemma digitChar_toNat (k : Nat) (hk : k < 10) : (Nat.digitChar k).toNat - 48 = k := by
  interval_cases k <;> rfl

lemma toDigitsCore_decode (fuel : Nat) :
    ∀ (n : Nat) (ds : List Char), n < fuel →
      ∃ p : List Char, Nat.toDigitsCore 10 fuel n ds = p ++ ds ∧
        p.foldl (fun a c => 10 * a + (c.toNat - 48)) 0 = n := by
  induction fuel with
  | zero => intro n ds h; omega
  | succ fuel ih =>
    intro n ds h
    unfold Nat.toDigitsCore
    by_cases h0 : n / 10 = 0
    · refine ⟨[Nat.digitChar (n % 10)], by simp [h0], ?_⟩
      have hlt : n % 10 < 10 := Nat.mod_lt _ (by decide)
      simp only [List.foldl_cons, List.foldl_nil, digitChar_toNat _ hlt]
      omega
    · obtain ⟨p, hp, hv⟩ := ih (n / 10) (Nat.digitChar (n % 10) :: ds) (by omega)
      refine ⟨p ++ [Nat.digitChar (n % 10)], by simp [h0, hp], ?_⟩
      have hlt : n % 10 < 10 := Nat.mod_lt _ (by decide)
      simp only [List.foldl_append, List.foldl_cons, List.foldl_nil, hv, digitChar_toNat _ hlt]
      omega

lemma toString_nat_injective (a b : Nat) (h : toString a = toString b) : a = b := by
  have h1 : Nat.toDigits 10 a = Nat.toDigits 10 b := by
    have h2 : (Nat.toDigits 10 a).asString = (Nat.toDigits 10 b).asString := h
    exact congrArg String.data h2
  obtain ⟨p, hp, hv⟩ := toDigitsCore_decode (a + 1) a [] (by omega)
  obtain ⟨q, hq, hw⟩ := toDigitsCore_decode (b + 1) b [] (by omega)
  have hpq : p = q := by
    have : p ++ [] = q ++ [] := by rw [← hp, ← hq]; exact h1
    simpa using this
  rw [← hv, ← hw, hpq]

lemma helperName_injective (a b : Nat) (h : helperName a = helperName b) : a = b := by
  apply toString_nat_injective
  have h1 := congrArg String.data h
  simp only [helperName, String.data_append] at h1
  exact String.ext (List.append_cancel_left h1)

lemma mem_keys_of_getenv_ne (environ : List (String × String)) (key : String)
    (h : Getenv environ key ≠ "") : key ∈ environ.map Prod.fst := by
  induction environ with
  | nil => simp [Getenv, List.lookup] at h
  | cons kv rest ih =>
    obtain ⟨k1, v1⟩ := kv
    by_cases hk : key = k1
    · simp [hk]
    · have hb : (key == k1) = false := by simpa using hk
      have : Getenv ((k1, v1) :: rest) key = Getenv rest key := by
        simp [Getenv, List.lookup, hb]
      rw [this] at h
      simp [ih h]

lemma exists_unset_helper (environ : List (String × String)) :
    ∃ m, 1 ≤ m ∧ m ≤ environ.length + 1 ∧ Getenv environ (helperName m) = "" := by
  by_contra hcon
  push_neg at hcon
  have hsub : ∀ m ∈ Finset.Icc 1 (environ.length + 1),
      helperName m ∈ (environ.map Prod.fst).toFinset := by
    intro m hm
    rw [Finset.mem_Icc] at hm
    rw [List.mem_toFinset]
    exact mem_keys_of_getenv_ne environ _ (hcon m hm.1 hm.2)
  have hinj : Set.InjOn helperName (Finset.Icc 1 (environ.length + 1) : Set Nat) := by
    intro a _ b _ hab
    exact helperName_injective a b hab
  have hcard := Finset.card_le_card_of_injOn helperName hsub hinj
  have hle : (environ.map Prod.fst).toFinset.card ≤ environ.length := by
    have := List.toFinset_card_le (environ.map Prod.fst)
    simpa using this
  simp only [Nat.card_Icc] at hcard
  omega

lemma helperLoop_eq (environ : List (String × String)) (m : Nat)
    (hm : Getenv environ (helperName m) = "") :
    ∀ (fuel i : Nat) (acc : List String), i ≤ m → m < i + fuel →
      (∀ k, i ≤ k → k < m → Getenv environ (helperName k) ≠ "") →
      helperLoop environ fuel i acc =
        some (acc ++ (List.range (m - i)).map (fun k => Getenv environ (helperName (i + k)))) := by
  intro fuel
  induction fuel with
  | zero => intro i acc h1 h2; omega
  | succ fuel ih =>
    intro i acc h1 h2 hne
    unfold helperLoop
    by_cases him : i = m
    · subst him
      simp [hm]
    · have hi : Getenv environ (helperName i) ≠ "" := hne i (Nat.le_refl _) (by omega)
      simp only [hi, if_false]
      rw [ih (i + 1) _ (by omega) (by omega) (fun k hk1 hk2 => hne k (by omega) hk2)]
      have hsplit : m - i = (m - (i + 1)) + 1 := by omega
      rw [hsplit, List.range_succ_eq_map, List.map_cons, List.map_map]
      simp only [List.append_assoc, List.singleton_append, Nat.add_zero]
      congr 3
      apply List.map_congr_left
      intro k _
      simp only [Function.comp, Nat.succ_eq_add_one]
      congr 2
      omega

/-- C10: the identity pool is never empty: for every environment `init`
builds the token list made of the primary token (empty or not) followed by the
helper tokens 1, 2, ... up to but not including the first empty one; `main`
creates one identity per token, in order; so the pool has at least one
identity, the index `messageCounter % len(clients)` is defined and in range,
and submitting a message never panics. -/
theorem identity_pool_nonempty (environ : List (String × String)) :
    ∃ (m : Nat) (botTokens : List String), 1 ≤ m ∧ Getenv environ (helperName m) = "" ∧
      (∀ i, 1 ≤ i → i < m → Getenv environ (helperName i) ≠ "") ∧
      initBotTokens environ = some botTokens ∧
      botTokens = Getenv environ "DISCORD_BOT_TOKEN" ::
        (List.range (m - 1)).map (fun k => Getenv environ (helperName (k + 1))) ∧
      (newClients botTokens).length = botTokens.length ∧
      (∀ k : Nat, (newClients botTokens)[k]? = (botTokens[k]?).map Hermes.mk) ∧
      0 < (newClients botTokens).length ∧
      (∀ counter, counter % (newClients botTokens).length < (newClients botTokens).length) ∧
      (∀ counter, ∃ h,
        (newClients botTokens)[counter % (newClients botTokens).length]? = some h) ∧
      (∀ snowflake message counter,
        (sendMessage (newClients botTokens) snowflake message counter).panic = none) := by
  classical
  have hex : ∃ m, 1 ≤ m ∧ Getenv environ (helperName m) = "" := by
    obtain ⟨m, h1, _, h3⟩ := exists_unset_helper environ
    exact ⟨m, h1, h3⟩
  have hbound : Nat.find hex ≤ environ.length + 1 := by
    obtain ⟨m, h1, h2, h3⟩ := exists_unset_helper environ
    exact (Nat.find_min' hex ⟨h1, h3⟩).trans h2
  obtain ⟨hm1, hm2⟩ := Nat.find_spec hex
  have hmin : ∀ i, 1 ≤ i → i < Nat.find hex → Getenv environ (helperName i) ≠ "" := by
    intro i hi1 hi2 hi3
    exact Nat.find_min hex hi2 ⟨hi1, hi3⟩
  have hloop := helperLoop_eq environ (Nat.find hex) hm2 (environ.length + 1) 1
    [Getenv environ "DISCORD_BOT_TOKEN"] hm1 (by omega) hmin
  have hpos : 0 < (newClients (Getenv environ "DISCORD_BOT_TOKEN" ::
      (List.range (Nat.find hex - 1)).map (fun k => Getenv environ (helperName (k + 1))))).length := by
    simp [newClients]
  refine ⟨Nat.find hex, _, hm1, hm2, hmin, ?_, rfl, ?_, ?_, hpos, ?_, ?_, ?_⟩
  · rw [initBotTokens, hloop]
    simp [Nat.add_comm]
  · simp [newClients]
  · intro k; simp only [newClients, List.getElem?_map]
  · intro counter; exact Nat.mod_lt _ hpos
  · intro counter
    exact ⟨_, List.getElem?_eq_getElem (Nat.mod_lt _ hpos)⟩
  · intro snowflake message counter
    rw [sendMessage_eq _ hpos]

/-! ### Speakers -/

lemma sent_addLinksCalls (urlKey : String) : sent (addLinksCalls urlKey) = [] := by
  unfold addLinksCalls; split <;> rfl

lemma mem_sent_andThen {r : Run} {k : Nat → Run} {p : Snowflake × String}
    (h : p ∈ sent (r.andThen k).events) :
    p ∈ sent r.events ∨ ∃ c1, p ∈ sent (k c1).events := by
  cases hp : r.panic with
  | some msg => rw [andThen_of_panic k hp] at h; exact Or.inl h
  | none =>
    rw [andThen_of_ok k hp] at h
    simp only [sent_append, List.mem_append] at h
    rcases h with h | h
    · exact Or.inl h
    · exact Or.inr ⟨_, h⟩

lemma mem_sent_forRange {α : Type} {body : Nat → α → Nat → Run} {p : Snowflake × String} :
    ∀ (xs : List α) (j c : Nat), p ∈ sent (forRange body j xs c).events →
      ∃ t x c1, xs[t]? = some x ∧ p ∈ sent (body (j + t) x c1).events := by
  intro xs
  induction xs with
  | nil => intro j c h; simp [forRange, Run.emit, sent] at h
  | cons x xs ih =>
    intro j c h
    rcases mem_sent_andThen h with h | ⟨c1, h⟩
    · exact ⟨0, x, c, by simp, h⟩
    · obtain ⟨t, y, c2, hy, hp⟩ := ih (j + 1) c1 h
      refine ⟨t + 1, y, c2, by simpa using hy, ?_⟩
      have : j + (t + 1) = j + 1 + t := by omega
      rw [this]; exact hp

lemma mem_sent_sendMessage {clients : List Hermes} {s : Snowflake} {m : String} {c : Nat}
    {p : Snowflake × String} (h : p ∈ sent (sendMessage clients s m c).events) : p = (s, m) := by
  unfold sendMessage at h
  split at h
  · simp [Run.abort, sent] at h
  · split at h
    · simp [Run.abort, sent] at h
    · simpa [sent] using h

lemma mem_sent_speakerBody {w : World} {clients : List Hermes} {room : Room}
    {venueName : String} {category : Category} {i : Nat} {urlKeys : List String} {j : Nat}
    {s : Snowflake} {c : Nat} {p : Snowflake × String}
    (h : p ∈ sent (speakerBody w clients room venueName category i urlKeys j s c).events) :
    ∃ sideName urlKey, room.SideNames[i]? = some sideName ∧ urlKeys[j]? = some urlKey ∧
      p = (s, speakerText sideName venueName ++ addLinks w.tabbycat category.Url urlKey) := by
  unfold speakerBody at h
  split at h
  · simp [Run.abort, sent] at h
  · next urlKey hkey =>
    split at h
    · simp [Run.abort, sent_addLinksCalls] at h
    · next sideName hside =>
      rw [emit_andThen] at h
      simp only [sent_append, sent_addLinksCalls, List.nil_append] at h
      exact ⟨sideName, urlKey, hside, hkey, mem_sent_sendMessage h⟩

lemma mem_sent_teamBody {w : World} {o : Options} {clients : List Hermes} {room : Room}
    {venueName : String} {category : Category} {i : Nat} {team : String} {c : Nat}
    {p : Snowflake × String}
    (h : p ∈ sent (teamBody w o clients room venueName category i team c).events) :
    ∃ (discords urlKeys : List String) (snowflakes : List Snowflake) (j : Nat)
      (sideName urlKey : String),
      o.db.ParticipantsFromTeamId team = .ok (discords, urlKeys) ∧
      w.StringsToSnowflakes discords = .ok snowflakes ∧
      snowflakes[j]? = some p.1 ∧ room.SideNames[i]? = some sideName ∧
      urlKeys[j]? = some urlKey ∧
      p.2 = speakerText sideName venueName ++ addLinks w.tabbycat category.Url urlKey := by
  unfold teamBody at h
  split at h
  · simp [Run.abort, sent] at h
  · next discords urlKeys hdb =>
    split at h
    · simp [Run.abort, sent] at h
    · next snowflakes hparse =>
      rw [emit_andThen] at h
      simp only [sent_append, sent, List.nil_append] at h
      obtain ⟨t, x, c1, hx, hp⟩ := mem_sent_forRange snowflakes 0 _ h
      obtain ⟨sideName, urlKey, hside, hkey, rfl⟩ := mem_sent_speakerBody hp
      simp only [Nat.zero_add] at hkey
      exact ⟨discords, urlKeys, snowflakes, t, sideName, urlKey, hdb, hparse, hx, hside, hkey, rfl⟩

/-- C7: the body of a speaker's message: every message the loop over the
teams of a room submits goes to member j of the team at some index i and reads
"In this round, you will be speaking in **<SideNames[i]>** in room **<venue
name>**." followed by addLinks of the room's category URL and the URL key of
member j, the venue name being the venue map's entry for the room's venue id. -/
theorem speaker_body (w : World) (o : Options) (clients : List Hermes)
    (venueMap : String → Option String) (room : Room) (c : Nat) (snowflake : Snowflake)
    (message : String) :
    (snowflake, message) ∈ sent (teamsPart w o clients room (venueNameOf venueMap room)
        (o.categories.Lookup (venueNameOf venueMap room)).1 c).events →
      ∃ (i : Nat) (team : String) (discords urlKeys : List String)
        (snowflakes : List Snowflake) (j : Nat) (sideName urlKey : String),
        room.TeamIds[i]? = some team ∧
        o.db.ParticipantsFromTeamId team = .ok (discords, urlKeys) ∧
        w.StringsToSnowflakes discords = .ok snowflakes ∧
        snowflakes[j]? = some snowflake ∧
        room.SideNames[i]? = some sideName ∧
        urlKeys[j]? = some urlKey ∧
        message = "In this round, you will be speaking in **" ++ sideName ++ "** in room **"
          ++ (venueMap room.VenueId).getD "" ++ "**."
          ++ addLinks w.tabbycat (o.categories.Lookup ((venueMap room.VenueId).getD "")).1.Url
            urlKey := by
  intro h
  obtain ⟨i, team, c1, hteam, hp⟩ := mem_sent_forRange room.TeamIds 0 c h
  obtain ⟨discords, urlKeys, snowflakes, j, sideName, urlKey, h1, h2, h3, h4, h5, h6⟩ :=
    mem_sent_teamBody hp
  simp only [Nat.zero_add] at h4
  exact ⟨i, team, discords, urlKeys, snowflakes, j, sideName, urlKey, hteam, h1, h2, h3, h4, h5,
    h6⟩

set_option maxRecDepth 100000 in
/-- C7, witness: the first speaker of the sample draw. -/
theorem speaker_body_witness :
    (101, "In this round, you will be speaking in **Proposition** in room **Room A**."
        ++ "\n\nThe link to your Zoom room is https://zoom/a."
        ++ "\n\nYour private URL is https://tab/private/k1.")
      ∈ sent (teamsPart sampleWorld sampleOptions (newClients sampleOptions.botTokens)
        sampleRoom (venueNameOf sampleVenueMap sampleRoom)
        (sampleOptions.categories.Lookup (venueNameOf sampleVenueMap sampleRoom)).1 0).events ∧
    ∃ (i : Nat) (team : String) (discords urlKeys : List String)
        (snowflakes : List Snowflake) (j : Nat) (sideName urlKey : String),
      sampleRoom.TeamIds[i]? = some team ∧
      sampleOptions.db.ParticipantsFromTeamId team = .ok (discords, urlKeys) ∧
      sampleWorld.StringsToSnowflakes discords = .ok snowflakes ∧
      snowflakes[j]? = some 101 ∧
      sampleRoom.SideNames[i]? = some sideName ∧
      urlKeys[j]? = some urlKey ∧
      ("In this round, you will be speaking in **Proposition** in room **Room A**."
        ++ "\n\nThe link to your Zoom room is https://zoom/a."
        ++ "\n\nYour private URL is https://tab/private/k1.")
        = "In this round, you will be speaking in **" ++ sideName ++ "** in room **"
          ++ (sampleVenueMap sampleRoom.VenueId).getD "" ++ "**."
          ++ addLinks sampleWorld.tabbycat
            (sampleOptions.categories.Lookup ((sampleVenueMap sampleRoom.VenueId).getD "")).1.Url
            urlKey :=
  ⟨by decide,
    speaker_body sampleWorld sampleOptions (newClients sampleOptions.botTokens) sampleVenueMap
      sampleRoom 0 101 _ (by decide)⟩

lemma speakerBody_eq (w : World) (clients : List Hermes) (room : Room) (venueName : String)
    (category : Category) (i : Nat) (urlKeys : List String) (j : Nat) (s : Snowflake) (c : Nat)
    (sideName urlKey : String) (hN : 0 < clients.length)
    (hside : room.SideNames[i]? = some sideName) (hkey : urlKeys[j]? = some urlKey) :
    speakerBody w clients room venueName category i urlKeys j s c =
      ⟨addLinksCalls urlKey ++ [Event.sendMessage (c % clients.length) s
        (speakerText sideName venueName ++ addLinks w.tabbycat category.Url urlKey)],
        c + 1, none⟩ := by
  simp only [speakerBody, hside, hkey, emit_andThen, sendMessage_eq clients hN]

lemma speakerLoop_ok (w : World) (clients : List Hermes) (room : Room) (venueName : String)
    (category : Category) (i : Nat) (urlKeys : List String) (sideName : String)
    (hN : 0 < clients.length) (hside : room.SideNames[i]? = some sideName) :
    ∀ (snowflakes : List Snowflake) (j c : Nat), j + snowflakes.length ≤ urlKeys.length →
      (forRange (speakerBody w clients room venueName category i urlKeys) j snowflakes c).panic
        = none ∧
      (sent (forRange (speakerBody w clients room venueName category i urlKeys) j snowflakes
        c).events).map Prod.fst = snowflakes ∧
      (forRange (speakerBody w clients room venueName category i urlKeys) j snowflakes
        c).messageCounter = c + snowflakes.length := by
  intro snowflakes
  induction snowflakes with
  | nil => intro j c _; simp [forRange, Run.emit, sent]
  | cons s ss ih =>
    intro j c hlen
    simp only [List.length_cons] at hlen
    have hj : j < urlKeys.length := by omega
    obtain ⟨h1, h2, h3⟩ := ih (j + 1) (c + 1) (by omega)
    simp only [forRange]
    rw [speakerBody_eq w clients room venueName category i urlKeys j s c sideName urlKeys[j] hN
      hside (List.getElem?_eq_getElem hj)]
    rw [andThen_of_ok _ rfl]
    refine ⟨h1, ?_, ?_⟩
    · simp only [sent_append, sent_addLinksCalls, sent, List.nil_append, List.cons_append,
        List.map_cons, h2]
    · simp only [h3, List.length_cons]; omega

lemma teamBody_parsed (w : World) (o : Options) (clients : List Hermes) (room : Room)
    (venueName : String) (category : Category) (i : Nat) (team : String) (c : Nat)
    (discords urlKeys : List String) (hN : 0 < clients.length)
    (hdb : o.db.ParticipantsFromTeamId team = .ok (discords, urlKeys)) :
    (∀ e, w.StringsToSnowflakes discords = .error e →
      (teamBody w o clients room venueName category i team c).panic = some e ∧
      sent (teamBody w o clients room venueName category i team c).events = []) ∧
    (∀ snowflakes sideName, w.StringsToSnowflakes discords = .ok snowflakes →
      room.SideNames[i]? = some sideName → snowflakes.length ≤ urlKeys.length →
      (teamBody w o clients room venueName category i team c).panic = none ∧
      (sent (teamBody w o clients room venueName category i team c).events).map Prod.fst
        = snowflakes ∧
      (sent (teamBody w o clients room venueName category i team c).events).length
        = snowflakes.length ∧
      (teamBody w o clients room venueName category i team c).messageCounter
        = c + snowflakes.length) := by
  refine ⟨?_, ?_⟩
  · intro e he
    simp [teamBody, hdb, he, Run.abort, sent]
  · intro snowflakes sideName hparse hside hlen
    obtain ⟨h1, h2, h3⟩ := speakerLoop_ok w clients room venueName category i urlKeys sideName hN
      hside snowflakes 0 c (by omega)
    simp only [teamBody, hdb, hparse, emit_andThen, sent_append, sent, List.nil_append]
    refine ⟨h1, h2, ?_, h3⟩
    rw [← List.length_map (sent _) Prod.fst, h2]

lemma append_left_cancel_string {a b c : String} (h : a ++ b = a ++ c) : b = c := by
  have h1 := congrArg String.data h
  simp only [String.data_append] at h1
  exact String.ext (List.append_cancel_left h1)

lemma append_right_cancel_string {a b c : String} (h : a ++ c = b ++ c) : a = b := by
  have h1 := congrArg String.data h
  simp only [String.data_append] at h1
  exact String.ext (List.append_cancel_right h1)

set_option maxRecDepth 100000 in
/-- C4: a team whose first member has no chat handle: the directory lookup
succeeds with the handles "" and "42" and the URL keys k1 and k2. The speaker
loop has no test for an empty handle (the judge loop has one): the whole handle
list goes to the parser, and whatever the parsers of the world are, the team's
run either submits no message at all, or its first message carries the links
of k1, the URL key of the member without handle; it is never the single message
to the member with handle 42 carrying the private link of k2 (when the private
URLs of k1 and k2 differ). With a parser that rejects the empty handle the run
aborts and the member with handle 42 gets no message; with a parser that
accepts it, the member without handle is sent a message. -/
theorem speaker_empty_handle (w : World) :
    gapOptions.db.ParticipantsFromTeamId "t1" = .ok (["", "42"], ["k1", "k2"]) ∧
    (sent (teamBody w gapOptions (newClients gapOptions.botTokens) gapRoom
        "Room A" ⟨""⟩ 0 "t1" 0).events = [] ∨
      ∃ s rest, sent (teamBody w gapOptions (newClients gapOptions.botTokens) gapRoom
          "Room A" ⟨""⟩ 0 "t1" 0).events
        = (s, "In this round, you will be speaking in **Proposition** in room **Room A**."
            ++ addLinks w.tabbycat "" "k1") :: rest) ∧
    (w.tabbycat.PrivateUrlFromKey "k1" ≠ w.tabbycat.PrivateUrlFromKey "k2" →
      ∀ s, sent (teamBody w gapOptions (newClients gapOptions.botTokens) gapRoom
          "Room A" ⟨""⟩ 0 "t1" 0).events
        ≠ [(s, "In this round, you will be speaking in **Proposition** in room **Room A**."
            ++ addLinks w.tabbycat "" "k2")]) ∧
    teamBody (worldOf strictParse) gapOptions (newClients gapOptions.botTokens) gapRoom
        "Room A" ⟨""⟩ 0 "t1" 0
      = ⟨[Event.participantsFromTeamId "t1", Event.stringsToSnowflakes ["", "42"]], 0,
          some "invalid snowflake: "⟩ ∧
    sent (teamBody (worldOf lenientParse) gapOptions (newClients gapOptions.botTokens) gapRoom
        "Room A" ⟨""⟩ 0 "t1" 0).events
      = [(0, "In this round, you will be speaking in **Proposition** in room **Room A**."
            ++ "\n\nYour private URL is https://tab/private/k1."),
         (42, "In this round, you will be speaking in **Proposition** in room **Room A**."
            ++ "\n\nYour private URL is https://tab/private/k2.")] := by
  have hdb : gapOptions.db.ParticipantsFromTeamId "t1" = .ok (["", "42"], ["k1", "k2"]) := rfl
  have hN : 0 < (newClients gapOptions.botTokens).length := by decide
  have hmain : sent (teamBody w gapOptions (newClients gapOptions.botTokens) gapRoom
        "Room A" ⟨""⟩ 0 "t1" 0).events = [] ∨
      ∃ s rest, sent (teamBody w gapOptions (newClients gapOptions.botTokens) gapRoom
          "Room A" ⟨""⟩ 0 "t1" 0).events
        = (s, "In this round, you will be speaking in **Proposition** in room **Room A**."
            ++ addLinks w.tabbycat "" "k1") :: rest := by
    cases hp : w.StringsToSnowflakes ["", "42"] with
    | error e =>
      left
      simp [teamBody, hdb, hp, Run.abort, sent]
    | ok snowflakes =>
      cases snowflakes with
      | nil =>
        left
        simp [teamBody, hdb, hp, emit_andThen, forRange, Run.emit, sent]
      | cons s rest =>
        right
        refine ⟨s, sent (forRange (speakerBody w (newClients gapOptions.botTokens) gapRoom
          "Room A" ⟨""⟩ 0 ["k1", "k2"]) 1 rest 1).events, ?_⟩
        simp only [teamBody, hdb, hp, emit_andThen, forRange]
        rw [speakerBody_eq w (newClients gapOptions.botTokens) gapRoom "Room A" ⟨""⟩ 0
          ["k1", "k2"] 0 s 0 "Proposition" "k1" hN rfl rfl, andThen_of_ok _ rfl]
        simp only [sent_append, sent, sent_addLinksCalls, List.nil_append, List.cons_append,
          speakerText]
        rfl
  refine ⟨hdb, hmain, ?_, by decide, by decide⟩
  intro hne s heq
  rcases hmain with h | ⟨s1, rest, h⟩
  · rw [h] at heq
    exact List.noConfusion heq
  · rw [h] at heq
    injection heq with h1 _
    injection h1 with _ h2
    have h3 := append_left_cancel_string h2
    rw [(addLinks_table w.tabbycat "" "k1").2.2.1 rfl (by decide),
      (addLinks_table w.tabbycat "" "k2").2.2.1 rfl (by decide)] at h3
    exact hne (append_left_cancel_string (append_right_cancel_string h3))

/-! ### Judges -/

lemma judgeBody_empty (w : World) (clients : List Hermes) (room : Room) (venueName : String)
    (category : Category) (urlKeys : List String) (j : Nat) (c : Nat) (id : String)
    (hid : (judgeIds room)[j]? = some id) :
    judgeBody w clients room venueName category urlKeys j "" c
      = Run.emit [Event.logPrint ("Adjudicator " ++ id ++ " has no discord ID.\n")] c := by
  simp only [judgeBody, hid, if_true]

lemma judgeBody_ok (w : World) (clients : List Hermes) (room : Room) (venueName : String)
    (category : Category) (urlKeys : List String) (j : Nat) (discord : String) (c : Nat)
    (s : Snowflake) (urlKey : String) (hN : 0 < clients.length) (hd : discord ≠ "")
    (hparse : w.StringToSnowflake discord = .ok s) (hkey : urlKeys[j]? = some urlKey) :
    judgeBody w clients room venueName category urlKeys j discord c
      = ⟨(Event.stringToSnowflake discord :: addLinksCalls urlKey) ++
          [Event.sendMessage (c % clients.length) s
            (judgeText (position j room.PanellistIds.length) venueName
              ++ addLinks w.tabbycat category.Url urlKey)], c + 1, none⟩ := by
  simp only [judgeBody, hd, if_false, hparse, hkey, emit_andThen, sendMessage_eq clients hN]

lemma judgeLoop_ok (w : World) (clients : List Hermes) (room : Room) (venueName : String)
    (category : Category) (urlKeys : List String) (hN : 0 < clients.length) :
    ∀ (discords : List String) (j c : Nat), j + discords.length ≤ (judgeIds room).length →
      j + discords.length ≤ urlKeys.length →
      (∀ d ∈ discords, d ≠ "" → ∃ s, w.StringToSnowflake d = .ok s) →
      (forRange (judgeBody w clients room venueName category urlKeys) j discords c).panic = none ∧
      (discords.filter (fun d => d ≠ "")).map w.StringToSnowflake
        = (sent (forRange (judgeBody w clients room venueName category urlKeys) j discords
            c).events).map (fun p => Except.ok p.1) ∧
      (forRange (judgeBody w clients room venueName category urlKeys) j discords c).messageCounter
        = c + (discords.filter (fun d => d ≠ "")).length := by
  intro discords
  induction discords with
  | nil => intro j c _ _ _; simp [forRange, Run.emit, sent]
  | cons d ds ih =>
    intro j c hids hkeys hparse
    simp only [List.length_cons] at hids hkeys
    have hrest : ∀ d1 ∈ ds, d1 ≠ "" → ∃ s, w.StringToSnowflake d1 = .ok s :=
      fun d1 h1 => hparse d1 (List.mem_cons_of_mem _ h1)
    simp only [forRange]
    by_cases hd : d = ""
    · subst hd
      have hj : j < (judgeIds room).length := by omega
      obtain ⟨h1, h2, h3⟩ := ih (j + 1) c (by omega) (by omega) hrest
      rw [judgeBody_empty w clients room venueName category urlKeys j c _
        (List.getElem?_eq_getElem hj), emit_andThen]
      refine ⟨h1, ?_, ?_⟩
      · simpa [sent] using h2
      · simpa using h3
    · obtain ⟨s, hs⟩ := hparse d (List.mem_cons_self _ _) hd
      have hj : j < urlKeys.length := by omega
      obtain ⟨h1, h2, h3⟩ := ih (j + 1) (c + 1) (by omega) (by omega) hrest
      rw [judgeBody_ok w clients room venueName category urlKeys j d c s urlKeys[j] hN hd hs
        (List.getElem?_eq_getElem hj), andThen_of_ok _ rfl]
      have hf : (d :: ds).filter (fun d => d ≠ "") = d :: ds.filter (fun d => d ≠ "") := by
        simp [hd]
      refine ⟨h1, ?_, ?_⟩
      · rw [hf, List.map_cons, hs, h2]
        simp only [List.cons_append, sent, List.append_eq, sent_append, sent_addLinksCalls,
          List.nil_append, List.map_cons]
      · rw [hf]
        simp only [h3, List.length_cons]
        omega

/-- C5: the judges of a room, when the directory returns a handle and a URL key
for the judge ids (no more handles than ids or keys) and the non-empty handles
parse: a judge with an empty
handle gets no message and does not stop the run; the recipients of the judge
messages are, in order, exactly the snowflakes of the non-empty handles, so the
number of judge messages is the number of non-empty handles. -/
theorem judge_messages (w : World) (o : Options) (clients : List Hermes) (room : Room)
    (venueName : String) (category : Category) (c : Nat) (discords urlKeys : List String)
    (hN : 0 < clients.length)
    (hdb : o.db.DiscordFromParticipantIds (judgeIds room) = .ok (discords, urlKeys))
    (hids : discords.length ≤ (judgeIds room).length)
    (hkeys : discords.length ≤ urlKeys.length)
    (hparse : ∀ d ∈ discords, d ≠ "" → ∃ s, w.StringToSnowflake d = .ok s) :
    (judgesPart w o clients room venueName category c).panic = none ∧
    (discords.filter (fun d => d ≠ "")).map w.StringToSnowflake
      = (sent (judgesPart w o clients room venueName category c).events).map
          (fun p => Except.ok p.1) ∧
    (sent (judgesPart w o clients room venueName category c).events).length
      = (discords.filter (fun d => d ≠ "")).length ∧
    (judgesPart w o clients room venueName category c).messageCounter
      = c + (discords.filter (fun d => d ≠ "")).length := by
  obtain ⟨h1, h2, h3⟩ := judgeLoop_ok w clients room venueName category urlKeys hN discords 0 c
    (by omega) (by omega) hparse
  simp only [judgesPart, hdb, emit_andThen, sent_append, sent, List.nil_append]
  refine ⟨h1, h2, ?_, h3⟩
  have := congrArg List.length h2
  simp only [List.length_map] at this
  exact this.symm

set_option maxRecDepth 100000 in
/-- C5, witness: the chair has the handle 42 and the trainee has none: the run
goes on and the one judge message goes to snowflake 42. -/
theorem judge_messages_witness :
    0 < (newClients gapOptions.botTokens).length ∧
    gapOptions.db.DiscordFromParticipantIds (judgeIds gapRoom) = .ok (["42", ""], ["k5", "k6"]) ∧
    ["42", ""].length ≤ (judgeIds gapRoom).length ∧
    ["42", ""].length ≤ ["k5", "k6"].length ∧
    (worldOf strictParse).StringToSnowflake "42" = .ok 42 ∧
    ((judgesPart (worldOf strictParse) gapOptions (newClients gapOptions.botTokens) gapRoom
        "Room A" ⟨""⟩ 0).panic = none ∧
    (["42", ""].filter (fun d => d ≠ "")).map (worldOf strictParse).StringToSnowflake
      = (sent (judgesPart (worldOf strictParse) gapOptions (newClients gapOptions.botTokens)
          gapRoom "Room A" ⟨""⟩ 0).events).map (fun p => Except.ok p.1) ∧
    (sent (judgesPart (worldOf strictParse) gapOptions (newClients gapOptions.botTokens)
        gapRoom "Room A" ⟨""⟩ 0).events).length = (["42", ""].filter (fun d => d ≠ "")).length ∧
    (judgesPart (worldOf strictParse) gapOptions (newClients gapOptions.botTokens) gapRoom
        "Room A" ⟨""⟩ 0).messageCounter = 0 + (["42", ""].filter (fun d => d ≠ "")).length) ∧
    judgesPart (worldOf strictParse) gapOptions (newClients gapOptions.botTokens) gapRoom
        "Room A" ⟨""⟩ 0
      = ⟨[Event.discordFromParticipantIds ["c1", "j2"], Event.stringToSnowflake "42",
          Event.privateUrlFromKey "k5",
          Event.sendMessage 0 42 ("In this round, you will be judging as **the chair** in room "
            ++ "**Room A**.\n\nYour private URL is https://tab/private/k5."),
          Event.logPrint "Adjudicator j2 has no discord ID.\n"], 1, none⟩ :=
  ⟨by decide, rfl, by decide, by decide, rfl,
    judge_messages (worldOf strictParse) gapOptions (newClients gapOptions.botTokens) gapRoom
      "Room A" ⟨""⟩ 0 ["42", ""] ["k5", "k6"] (by decide) rfl (by decide) (by decide)
      (by
        intro d hd hne
        simp only [List.mem_cons, List.mem_singleton, List.not_mem_nil, or_false] at hd
        rcases hd with rfl | rfl
        · exact ⟨42, rfl⟩
        · exact absurd rfl hne),
    by decide⟩

lemma mem_sent_judgeBody {w : World} {clients : List Hermes} {room : Room} {venueName : String}
    {category : Category} {urlKeys : List String} {j : Nat} {discord : String} {c : Nat}
    {p : Snowflake × String}
    (h : p ∈ sent (judgeBody w clients room venueName category urlKeys j discord c).events) :
    discord ≠ "" ∧ w.StringToSnowflake discord = .ok p.1 ∧
      ∃ urlKey, urlKeys[j]? = some urlKey ∧
        p.2 = judgeText (position j room.PanellistIds.length) venueName
          ++ addLinks w.tabbycat category.Url urlKey := by
  unfold judgeBody at h
  split at h
  · split at h
    · simp [Run.abort, sent] at h
    · simp [Run.emit, sent] at h
  · next hd =>
    split at h
    · simp [Run.abort, sent] at h
    · next snowflake hparse =>
      split at h
      · simp [Run.abort, sent] at h
      · next urlKey hkey =>
        rw [emit_andThen] at h
        simp only [List.cons_append, sent, List.append_eq, sent_append, sent_addLinksCalls,
          List.nil_append] at h
        have hp := mem_sent_sendMessage h
        subst hp
        exact ⟨hd, hparse, urlKey, hkey, rfl⟩

lemma mem_sent_judgesPart {w : World} {o : Options} {clients : List Hermes} {room : Room}
    {venueName : String} {category : Category} {c : Nat} {p : Snowflake × String}
    (h : p ∈ sent (judgesPart w o clients room venueName category c).events) :
    ∃ (discords urlKeys : List String) (j : Nat) (discord urlKey : String),
      o.db.DiscordFromParticipantIds (judgeIds room) = .ok (discords, urlKeys) ∧
      discords[j]? = some discord ∧ discord ≠ "" ∧ w.StringToSnowflake discord = .ok p.1 ∧
      urlKeys[j]? = some urlKey ∧
      p.2 = judgeText (position j room.PanellistIds.length) venueName
        ++ addLinks w.tabbycat category.Url urlKey := by
  unfold judgesPart at h
  split at h
  · simp [Run.abort, sent] at h
  · next discords urlKeys hdb =>
    rw [emit_andThen] at h
    simp only [sent_append, sent, List.nil_append] at h
    obtain ⟨t, d, c1, hd, hp⟩ := mem_sent_forRange discords 0 _ h
    obtain ⟨hne, hparse, urlKey, hkey, hbody⟩ := mem_sent_judgeBody hp
    simp only [Nat.zero_add] at hkey hbody
    exact ⟨discords, urlKeys, t, d, urlKey, hdb, hd, hne, hparse, hkey, hbody⟩

lemma judgeIds_role (room : Room) (j : Nat) (id : String)
    (h : (judgeIds room)[j]? = some id) :
    (j = 0 ∧ id = room.ChairId ∧ position j room.PanellistIds.length = "the chair") ∨
    (∃ k, j = k + 1 ∧ room.PanellistIds[k]? = some id ∧
      position j room.PanellistIds.length = "a panellist") ∨
    (∃ k, j = room.PanellistIds.length + 1 + k ∧ room.TraineeIds[k]? = some id ∧
      position j room.PanellistIds.length = "a trainee") := by
  rcases Nat.eq_zero_or_pos j with h0 | h0
  · subst h0
    left
    simp only [judgeIds, List.singleton_append, List.getElem?_cons_zero, Option.some.injEq] at h
    exact ⟨rfl, h.symm, (position_table 0 _).1 rfl⟩
  · obtain ⟨k, rfl⟩ : ∃ k, j = k + 1 := ⟨j - 1, by omega⟩
    simp only [judgeIds, List.singleton_append, List.getElem?_cons_succ] at h
    by_cases hk : k < room.PanellistIds.length
    · right; left
      rw [List.getElem?_append_left hk] at h
      exact ⟨k, rfl, h, (position_table (k + 1) _).2.1 (by omega) (by omega)⟩
    · right; right
      rw [List.getElem?_append_right (by omega)] at h
      refine ⟨k - room.PanellistIds.length, by omega, h, ?_⟩
      exact (position_table (k + 1) _).2.2 (by omega)

/-- C9: judges and their positions: the judge list is the chair, then the
panellists in order, then the trainees in order; when the directory returns one
handle per judge id, every judge message goes to the judge at some index j of
that list (whose handle is not empty and parses to the recipient) and reads "In
this round, you will be judging as **<position>** in room **<venue name>**."
followed by addLinks of the category URL and the judge's URL key, where the
position is "the chair" for the room's chair, "a panellist" for a member of the
panellist list and "a trainee" for a member of the trainee list, whatever the
number of panellists. -/
theorem judge_roles (w : World) (o : Options) (clients : List Hermes) (room : Room)
    (venueName : String) (category : Category) (c : Nat) (discords urlKeys : List String)
    (hdb : o.db.DiscordFromParticipantIds (judgeIds room) = .ok (discords, urlKeys))
    (hids : discords.length = (judgeIds room).length) :
    judgeIds room = room.ChairId :: (room.PanellistIds ++ room.TraineeIds) ∧
    ((judgeIds room)[0]? = some room.ChairId ∧
      position 0 room.PanellistIds.length = "the chair") ∧
    (∀ k id, room.PanellistIds[k]? = some id →
      (judgeIds room)[k + 1]? = some id ∧
      position (k + 1) room.PanellistIds.length = "a panellist") ∧
    (∀ k id, room.TraineeIds[k]? = some id →
      (judgeIds room)[room.PanellistIds.length + 1 + k]? = some id ∧
      position (room.PanellistIds.length + 1 + k) room.PanellistIds.length = "a trainee") ∧
    (room.PanellistIds = [] → ∀ id, room.TraineeIds[0]? = some id →
      (judgeIds room)[1]? = some id ∧ position 1 room.PanellistIds.length = "a trainee") ∧
    (∀ snowflake message,
      (snowflake, message) ∈ sent (judgesPart w o clients room venueName category c).events →
      ∃ (j : Nat) (discord urlKey id pos : String),
        discords[j]? = some discord ∧ discord ≠ "" ∧
        w.StringToSnowflake discord = .ok snowflake ∧
        urlKeys[j]? = some urlKey ∧ (judgeIds room)[j]? = some id ∧
        message = "In this round, you will be judging as **" ++ pos ++ "** in room **"
          ++ venueName ++ "**." ++ addLinks w.tabbycat category.Url urlKey ∧
        ((j = 0 ∧ id = room.ChairId ∧ pos = "the chair") ∨
         (∃ k, j = k + 1 ∧ room.PanellistIds[k]? = some id ∧ pos = "a panellist") ∨
         (∃ k, j = room.PanellistIds.length + 1 + k ∧ room.TraineeIds[k]? = some id ∧
           pos = "a trainee"))) := by
  have hpan : ∀ k id, room.PanellistIds[k]? = some id →
      (judgeIds room)[k + 1]? = some id ∧
      position (k + 1) room.PanellistIds.length = "a panellist" := by
    intro k id hk
    have hlt : k < room.PanellistIds.length := by
      by_contra hcon
      rw [List.getElem?_eq_none (by omega)] at hk
      exact Option.noConfusion hk
    refine ⟨?_, (position_table (k + 1) _).2.1 (by omega) (by omega)⟩
    simp only [judgeIds, List.singleton_append, List.getElem?_cons_succ]
    rw [List.getElem?_append_left hlt]; exact hk
  have htr : ∀ k id, room.TraineeIds[k]? = some id →
      (judgeIds room)[room.PanellistIds.length + 1 + k]? = some id ∧
      position (room.PanellistIds.length + 1 + k) room.PanellistIds.length = "a trainee" := by
    intro k id hk
    refine ⟨?_, (position_table _ _).2.2 (by omega)⟩
    have e : room.PanellistIds.length + 1 + k = (room.PanellistIds.length + k) + 1 := by omega
    rw [e]
    simp only [judgeIds, List.singleton_append, List.getElem?_cons_succ]
    rw [List.getElem?_append_right (by omega)]
    simpa using hk
  refine ⟨rfl, ⟨by simp [judgeIds], (position_table 0 _).1 rfl⟩, hpan, htr, ?_, ?_⟩
  · intro hnil id hid
    have := htr 0 id hid
    simpa [hnil] using this
  · intro snowflake message hmem
    obtain ⟨discords1, urlKeys1, j, discord, urlKey, hdb1, hd, hne, hparse, hkey, hbody⟩ :=
      mem_sent_judgesPart hmem
    rw [hdb] at hdb1
    injection hdb1 with hdb1
    injection hdb1 with e1 e2
    subst e1 e2
    have hj : j < (judgeIds room).length := by
      rw [← hids]
      by_contra hcon
      rw [List.getElem?_eq_none (by omega)] at hd
      exact Option.noConfusion hd
    refine ⟨j, discord, urlKey, (judgeIds room)[j], position j room.PanellistIds.length, hd, hne,
      hparse, hkey, List.getElem?_eq_getElem hj, hbody, ?_⟩
    rcases judgeIds_role room j _ (List.getElem?_eq_getElem hj) with h | h | h
    · exact Or.inl ⟨h.1, h.2.1, h.2.2⟩
    · obtain ⟨k, h1, h2, h3⟩ := h
      exact Or.inr (Or.inl ⟨k, h1, h2, h3⟩)
    · obtain ⟨k, h1, h2, h3⟩ := h
      exact Or.inr (Or.inr ⟨k, h1, h2, h3⟩)

/-! ### A room without category -/

lemma sent_lookupCalls (o : Options) (venueName : String) :
    sent (lookupCalls o venueName) = [] := by
  unfold lookupCalls; split <;> rfl

lemma sent_verbose (o : Options) (line : String) (c : Nat) :
    sent (verbose o line c).events = [] := by
  unfold verbose; split <;> rfl

lemma verbose_panic (o : Options) (line : String) (c : Nat) : (verbose o line c).panic = none := by
  unfold verbose; split <;> rfl

lemma andThen_panic_of_ok {r : Run} {k : Nat → Run} (hk : ∀ c, (k c).panic = none) :
    (r.andThen k).panic = r.panic := by
  cases h : r.panic with
  | some msg => rw [andThen_of_panic k h]; exact h
  | none => rw [andThen_of_ok k h]; exact hk _

lemma andThen_assoc (r : Run) (k1 k2 : Nat → Run) :
    (r.andThen k1).andThen k2 = r.andThen (fun c => (k1 c).andThen k2) := by
  cases h : r.panic <;> cases h1 : (k1 r.messageCounter).panic <;>
    simp [Run.andThen, h, h1]

lemma mem_sent_roomBody {w : World} {o : Options} {clients : List Hermes}
    {venueMap : String → Option String} {room : Room} {c : Nat} {p : Snowflake × String}
    (h : p ∈ sent (roomBody w o clients venueMap room c).events) :
    (∃ c1, p ∈ sent (teamsPart w o clients room (venueNameOf venueMap room)
        (o.categories.Lookup (venueNameOf venueMap room)).1 c1).events) ∨
    (∃ c1, p ∈ sent (judgesPart w o clients room (venueNameOf venueMap room)
        (o.categories.Lookup (venueNameOf venueMap room)).1 c1).events) := by
  unfold roomBody at h
  rw [emit_andThen] at h
  simp only [sent_append, sent_lookupCalls, List.nil_append] at h
  rcases mem_sent_andThen h with h | ⟨c1, h⟩
  · exact Or.inl ⟨_, h⟩
  · rcases mem_sent_andThen h with h | ⟨c2, h⟩
    · exact Or.inr ⟨_, h⟩
    · rw [sent_verbose] at h
      exact absurd h (List.not_mem_nil _)

/-- C6: a room whose venue name matches no category. With the lookup the spec
describes, such a lookup gives an empty category URL and an error; `main` logs
the error and goes on with the teams and the judges of the room exactly as for
a category without URL (the room panics only if they do), and every message
of the room is the text followed by the private-link paragraph alone, or by
nothing when the URL key is empty. A venue id missing from the venue map has
the empty string as name. -/
theorem category_failure (rules : List CategoryRule) (w : World) (o : Options)
    (clients : List Hermes) (venueMap : String → Option String) (room : Room) (c : Nat)
    (e : String) (hcat : o.categories.Lookup = specLookup rules)
    (herr : (specLookup rules (venueNameOf venueMap room)).2 = some e) :
    (venueMap room.VenueId = none → venueNameOf venueMap room = "" ∧
      ∃ e1, (specLookup rules (venueNameOf venueMap room)).2 = some e1) ∧
    (o.categories.Lookup (venueNameOf venueMap room)).1.Url = "" ∧
    roomBody w o clients venueMap room c
      = ((Run.emit [Event.lookup (venueNameOf venueMap room), Event.logPrint e] c).andThen
          fun c1 => (teamsPart w o clients room (venueNameOf venueMap room) ⟨""⟩ c1).andThen
          fun c2 => (judgesPart w o clients room (venueNameOf venueMap room) ⟨""⟩ c2).andThen
            (verbose o ("Queued messages for room " ++ venueNameOf venueMap room ++ "\n"))) ∧
    (roomBody w o clients venueMap room c).panic
      = ((teamsPart w o clients room (venueNameOf venueMap room) ⟨""⟩ c).andThen
          fun c2 => judgesPart w o clients room (venueNameOf venueMap room) ⟨""⟩ c2).panic ∧
    (∀ snowflake message, (snowflake, message) ∈ sent (roomBody w o clients venueMap room c).events →
      ∃ label urlKey text,
        (text = "In this round, you will be speaking in **" ++ label ++ "** in room **"
            ++ venueNameOf venueMap room ++ "**." ∨
         text = "In this round, you will be judging as **" ++ label ++ "** in room **"
            ++ venueNameOf venueMap room ++ "**.") ∧
        message = text ++ addLinks w.tabbycat "" urlKey ∧
        (urlKey = "" → message = text) ∧
        (urlKey ≠ "" → message
          = text ++ ("\n\nYour private URL is " ++ w.tabbycat.PrivateUrlFromKey urlKey ++ "."))) := by
  have hfind : (specLookup rules (venueNameOf venueMap room)).1 = ⟨""⟩ := by
    unfold specLookup at herr ⊢
    split
    · rfl
    · next hne =>
      rw [if_neg hne] at herr
      split
      · next r hr => simp [hr] at herr
      · rfl
  have hurl : (o.categories.Lookup (venueNameOf venueMap room)).1 = ⟨""⟩ := by rw [hcat, hfind]
  have hbody : roomBody w o clients venueMap room c
      = ((Run.emit [Event.lookup (venueNameOf venueMap room), Event.logPrint e] c).andThen
          fun c1 => (teamsPart w o clients room (venueNameOf venueMap room) ⟨""⟩ c1).andThen
          fun c2 => (judgesPart w o clients room (venueNameOf venueMap room) ⟨""⟩ c2).andThen
            (verbose o ("Queued messages for room " ++ venueNameOf venueMap room ++ "\n"))) := by
    have hcalls : lookupCalls o (venueNameOf venueMap room)
        = [Event.lookup (venueNameOf venueMap room), Event.logPrint e] := by
      simp only [lookupCalls, hcat, herr]
    simp only [roomBody, hurl, hcalls]
  refine ⟨?_, by rw [hurl], hbody, ?_, ?_⟩
  · intro hnone
    have hname : venueNameOf venueMap room = "" := by simp [venueNameOf, hnone]
    refine ⟨hname, ?_⟩
    rw [hname]
    exact ⟨"no category matches venue " ++ "", by simp [specLookup]⟩
  · rw [hbody, emit_andThen]
    simp only
    rw [← andThen_assoc]
    exact andThen_panic_of_ok (fun c1 => verbose_panic o _ c1)
  · intro snowflake message hmem
    have hsplit : ∀ text urlKey, message = text ++ addLinks w.tabbycat "" urlKey →
        (urlKey = "" → message = text) ∧
        (urlKey ≠ "" → message
          = text ++ ("\n\nYour private URL is " ++ w.tabbycat.PrivateUrlFromKey urlKey ++ ".")) := by
      intro text urlKey hm
      refine ⟨fun hk => ?_, fun hk => ?_⟩
      · rw [hm, (addLinks_table w.tabbycat "" urlKey).1 rfl hk, String.append_empty]
      · rw [hm, (addLinks_table w.tabbycat "" urlKey).2.2.1 rfl hk]
    rcases mem_sent_roomBody hmem with ⟨c1, h⟩ | ⟨c1, h⟩
    · obtain ⟨i, team, c2, _, hp⟩ := mem_sent_forRange room.TeamIds 0 c1 h
      obtain ⟨discords, urlKeys, snowflakes, j, sideName, urlKey, _, _, _, _, _, h6⟩ :=
        mem_sent_teamBody hp
      rw [hurl] at h6
      exact ⟨sideName, urlKey, _, Or.inl rfl, h6, hsplit _ _ h6⟩
    · obtain ⟨discords, urlKeys, j, discord, urlKey, _, _, _, _, _, h6⟩ := mem_sent_judgesPart h
      rw [hurl] at h6
      exact ⟨position j room.PanellistIds.length, urlKey, _, Or.inr rfl, h6, hsplit _ _ h6⟩

set_option maxRecDepth 100000 in
/-- C9, witness: the judges of the sample room: a chair, two panellists and a
trainee, all with a handle. -/
theorem judge_roles_witness :
    sampleOptions.db.DiscordFromParticipantIds (judgeIds sampleRoom)
      = .ok (["301", "302", "303", "304"], ["k5", "k6", "k7", "k8"]) ∧
    ["301", "302", "303", "304"].length = (judgeIds sampleRoom).length ∧
    (judgeIds sampleRoom = sampleRoom.ChairId :: (sampleRoom.PanellistIds ++ sampleRoom.TraineeIds) ∧
    ((judgeIds sampleRoom)[0]? = some sampleRoom.ChairId ∧
      position 0 sampleRoom.PanellistIds.length = "the chair") ∧
    (∀ k id, sampleRoom.PanellistIds[k]? = some id →
      (judgeIds sampleRoom)[k + 1]? = some id ∧
      position (k + 1) sampleRoom.PanellistIds.length = "a panellist") ∧
    (∀ k id, sampleRoom.TraineeIds[k]? = some id →
      (judgeIds sampleRoom)[sampleRoom.PanellistIds.length + 1 + k]? = some id ∧
      position (sampleRoom.PanellistIds.length + 1 + k) sampleRoom.PanellistIds.length = "a trainee") ∧
    (sampleRoom.PanellistIds = [] → ∀ id, sampleRoom.TraineeIds[0]? = some id →
      (judgeIds sampleRoom)[1]? = some id ∧ position 1 sampleRoom.PanellistIds.length = "a trainee") ∧
    (∀ snowflake message,
      (snowflake, message) ∈ sent (judgesPart sampleWorld sampleOptions (newClients sampleOptions.botTokens) sampleRoom "Room A" (Category.mk "https://zoom/a") 0).events →
      ∃ (j : Nat) (discord urlKey id pos : String),
        ["301", "302", "303", "304"][j]? = some discord ∧ discord ≠ "" ∧
        sampleWorld.StringToSnowflake discord = .ok snowflake ∧
        ["k5", "k6", "k7", "k8"][j]? = some urlKey ∧ (judgeIds sampleRoom)[j]? = some id ∧
        message = "In this round, you will be judging as **" ++ pos ++ "** in room **"
          ++ "Room A" ++ "**." ++ addLinks sampleWorld.tabbycat (Category.mk "https://zoom/a").Url urlKey ∧
        ((j = 0 ∧ id = sampleRoom.ChairId ∧ pos = "the chair") ∨
         (∃ k, j = k + 1 ∧ sampleRoom.PanellistIds[k]? = some id ∧ pos = "a panellist") ∨
         (∃ k, j = sampleRoom.PanellistIds.length + 1 + k ∧ sampleRoom.TraineeIds[k]? = some id ∧
           pos = "a trainee")))) ∧
    sent (judgesPart sampleWorld sampleOptions (newClients sampleOptions.botTokens) sampleRoom
        "Room A" (Category.mk "https://zoom/a") 0).events
      = [(301, "In this round, you will be judging as **the chair** in room **Room A**."
            ++ "\n\nThe link to your Zoom room is https://zoom/a."
            ++ "\n\nYour private URL is https://tab/private/k5."),
         (302, "In this round, you will be judging as **a panellist** in room **Room A**."
            ++ "\n\nThe link to your Zoom room is https://zoom/a."
            ++ "\n\nYour private URL is https://tab/private/k6."),
         (303, "In this round, you will be judging as **a panellist** in room **Room A**."
            ++ "\n\nThe link to your Zoom room is https://zoom/a."
            ++ "\n\nYour private URL is https://tab/private/k7."),
         (304, "In this round, you will be judging as **a trainee** in room **Room A**."
            ++ "\n\nThe link to your Zoom room is https://zoom/a."
            ++ "\n\nYour private URL is https://tab/private/k8.")] :=
  ⟨rfl, by decide,
    judge_roles sampleWorld sampleOptions (newClients sampleOptions.botTokens) sampleRoom
      "Room A" (Category.mk "https://zoom/a") 0 ["301", "302", "303", "304"]
      ["k5", "k6", "k7", "k8"] rfl (by decide),
    by decide⟩


set_option maxRecDepth 100000 in
/-- C6, witness: the venue of the room is missing from the venue map, its name
is empty and no category matches: the room runs to its end and its three
messages carry the private link alone. -/
theorem category_failure_witness :
    gapOptions.categories.Lookup = specLookup [] ∧
    (specLookup [] (venueNameOf sampleVenueMap gapRoom)).2 = some "no category matches venue " ∧
    ((sampleVenueMap gapRoom.VenueId = none → venueNameOf sampleVenueMap gapRoom = "" ∧
      ∃ e1, (specLookup [] (venueNameOf sampleVenueMap gapRoom)).2 = some e1) ∧
    (gapOptions.categories.Lookup (venueNameOf sampleVenueMap gapRoom)).1.Url = "" ∧
    roomBody (worldOf lenientParse) gapOptions (newClients gapOptions.botTokens) sampleVenueMap gapRoom 0
      = ((Run.emit [Event.lookup (venueNameOf sampleVenueMap gapRoom), Event.logPrint "no category matches venue "] 0).andThen
          fun c1 => (teamsPart (worldOf lenientParse) gapOptions (newClients gapOptions.botTokens) gapRoom (venueNameOf sampleVenueMap gapRoom) ⟨""⟩ c1).andThen
          fun c2 => (judgesPart (worldOf lenientParse) gapOptions (newClients gapOptions.botTokens) gapRoom (venueNameOf sampleVenueMap gapRoom) ⟨""⟩ c2).andThen
            (verbose gapOptions ("Queued messages for room " ++ venueNameOf sampleVenueMap gapRoom ++ "\n"))) ∧
    (roomBody (worldOf lenientParse) gapOptions (newClients gapOptions.botTokens) sampleVenueMap gapRoom 0).panic
      = ((teamsPart (worldOf lenientParse) gapOptions (newClients gapOptions.botTokens) gapRoom (venueNameOf sampleVenueMap gapRoom) ⟨""⟩ 0).andThen
          fun c2 => judgesPart (worldOf lenientParse) gapOptions (newClients gapOptions.botTokens) gapRoom (venueNameOf sampleVenueMap gapRoom) ⟨""⟩ c2).panic ∧
    (∀ snowflake message, (snowflake, message) ∈ sent (roomBody (worldOf lenientParse) gapOptions (newClients gapOptions.botTokens) sampleVenueMap gapRoom 0).events →
      ∃ label urlKey text,
        (text = "In this round, you will be speaking in **" ++ label ++ "** in room **"
            ++ venueNameOf sampleVenueMap gapRoom ++ "**." ∨
         text = "In this round, you will be judging as **" ++ label ++ "** in room **"
            ++ venueNameOf sampleVenueMap gapRoom ++ "**.") ∧
        message = text ++ addLinks (worldOf lenientParse).tabbycat "" urlKey ∧
        (urlKey = "" → message = text) ∧
        (urlKey ≠ "" → message
          = text ++ ("\n\nYour private URL is " ++ (worldOf lenientParse).tabbycat.PrivateUrlFromKey urlKey ++ ".")))) ∧
    roomBody (worldOf lenientParse) gapOptions (newClients gapOptions.botTokens) sampleVenueMap
        gapRoom 0
      = ⟨[Event.lookup "", Event.logPrint "no category matches venue ",
          Event.participantsFromTeamId "t1", Event.stringsToSnowflakes ["", "42"],
          Event.privateUrlFromKey "k1",
          Event.sendMessage 0 0 ("In this round, you will be speaking in **Proposition** in room ****."
            ++ "\n\nYour private URL is https://tab/private/k1."),
          Event.privateUrlFromKey "k2",
          Event.sendMessage 0 42 ("In this round, you will be speaking in **Proposition** in room ****."
            ++ "\n\nYour private URL is https://tab/private/k2."),
          Event.discordFromParticipantIds ["c1", "j2"],
          Event.stringToSnowflake "42", Event.privateUrlFromKey "k5",
          Event.sendMessage 0 42 ("In this round, you will be judging as **the chair** in room ****."
            ++ "\n\nYour private URL is https://tab/private/k5."),
          Event.logPrint "Adjudicator j2 has no discord ID.\n"], 3, none⟩ :=
  ⟨rfl, rfl,
    category_failure [] (worldOf lenientParse) gapOptions (newClients gapOptions.botTokens)
      sampleVenueMap gapRoom 0 "no category matches venue " rfl rfl,
    by decide⟩

/-! ### Resolution and dispatch -/

lemma safe_append (w : World) (o : Options) :
    ∀ (a ctx b : List Event), Safe w o ctx (a ++ b) ↔ Safe w o ctx a ∧ Safe w o (ctx ++ a) b := by
  intro a
  induction a with
  | nil => intro ctx b; simp [Safe]
  | cons e a ih =>
    intro ctx b
    have e1 : (ctx ++ [e]) ++ a = ctx ++ e :: a := by simp
    show Good w o ctx e ∧ Safe w o (ctx ++ [e]) (a ++ b)
      ↔ (Good w o ctx e ∧ Safe w o (ctx ++ [e]) a) ∧ Safe w o (ctx ++ e :: a) b
    rw [ih, e1, and_assoc]

lemma safe_split {w : World} {o : Options} {ctx evs a b : List Event} {e : Event}
    (h : Safe w o ctx evs) (he : evs = a ++ e :: b) : Good w o (ctx ++ a) e := by
  rw [he, safe_append] at h
  exact h.2.1

lemma resolved_mono {w : World} {o : Options} {ctx : List Event} (more : List Event)
    {s : Snowflake} {m : String} (h : Resolved w o ctx s m) : Resolved w o (ctx ++ more) s m := by
  rcases h with ⟨team, discords, urlKeys, snowflakes, j, urlKey, text, url, h1, h2, h3, h4, h5, h6,
      h7, h8⟩ | ⟨ids, discords, urlKeys, j, discord, urlKey, text, url, h1, h2, h3, h4, h5, h6,
      h7, h8⟩
  · exact Or.inl ⟨team, discords, urlKeys, snowflakes, j, urlKey, text, url,
      List.mem_append_left _ h1, h2, List.mem_append_left _ h3, h4, h5, h6,
      fun hk => List.mem_append_left _ (h7 hk), h8⟩
  · exact Or.inr ⟨ids, discords, urlKeys, j, discord, urlKey, text, url,
      List.mem_append_left _ h1, h2, h3, List.mem_append_left _ h4, h5, h6,
      fun hk => List.mem_append_left _ (h7 hk), h8⟩

lemma safe_andThen {w : World} {o : Options} {ctx : List Event} {r : Run} {k : Nat → Run}
    (hr : Safe w o ctx r.events) (hk : ∀ c1, Safe w o (ctx ++ r.events) (k c1).events) :
    Safe w o ctx (r.andThen k).events := by
  cases h : r.panic with
  | some msg => rw [andThen_of_panic k h]; exact hr
  | none =>
    rw [andThen_of_ok k h]
    exact (safe_append w o _ _ _).2 ⟨hr, hk _⟩

lemma safe_forRange {α : Type} {w : World} {o : Options} {body : Nat → α → Nat → Run}
    (P : List Event → Prop) (hmono : ∀ ctx more, P ctx → P (ctx ++ more)) :
    ∀ (xs : List α) (j : Nat) (ctx : List Event) (c : Nat),
      (∀ t x c1 ctx1, xs[t]? = some x → P ctx1 → Safe w o ctx1 (body (j + t) x c1).events) →
      P ctx → Safe w o ctx (forRange body j xs c).events := by
  intro xs
  induction xs with
  | nil => intro j ctx c _ _; simp [forRange, Run.emit, Safe]
  | cons x xs ih =>
    intro j ctx c hb hP
    refine safe_andThen (hb 0 x c ctx (by simp) hP) (fun c1 => ?_)
    refine ih (j + 1) _ c1 (fun t y c2 ctx1 hy hP1 => ?_) (hmono _ _ hP)
    have := hb (t + 1) y c2 ctx1 (by simpa using hy) hP1
    have e : j + (t + 1) = j + 1 + t := by omega
    rw [e] at this; exact this

lemma safe_addLinksCalls (w : World) (o : Options) (ctx : List Event) (urlKey : String) :
    Safe w o ctx (addLinksCalls urlKey) := by
  unfold addLinksCalls; split <;> simp [Safe, Good]

lemma mem_addLinksCalls (urlKey : String) (h : urlKey ≠ "") :
    Event.privateUrlFromKey urlKey ∈ addLinksCalls urlKey := by
  simp [addLinksCalls, h]

lemma sendMessage_events (clients : List Hermes) (s : Snowflake) (m : String) (c : Nat) :
    (sendMessage clients s m c).events = [] ∨
    (sendMessage clients s m c).events = [Event.sendMessage (c % clients.length) s m] := by
  unfold sendMessage
  split
  · left; rfl
  · split
    · left; rfl
    · right; rfl

lemma safe_sendMessage {w : World} {o : Options} {ctx : List Event} (clients : List Hermes)
    {s : Snowflake} {m : String} (c : Nat) (h : Resolved w o ctx s m) :
    Safe w o ctx (sendMessage clients s m c).events := by
  rcases sendMessage_events clients s m c with he | he
  · rw [he]; trivial
  · rw [he]; exact ⟨h, trivial⟩

lemma safe_speakerBody (w : World) (o : Options) (clients : List Hermes) (room : Room)
    (venueName : String) (category : Category) (i : Nat) (team : String)
    (discords urlKeys : List String) (snowflakes : List Snowflake) (j : Nat) (s : Snowflake)
    (c : Nat) (ctx : List Event)
    (hdb : o.db.ParticipantsFromTeamId team = .ok (discords, urlKeys))
    (hparse : w.StringsToSnowflakes discords = .ok snowflakes)
    (hs : snowflakes[j]? = some s)
    (hctx : Event.participantsFromTeamId team ∈ ctx ∧ Event.stringsToSnowflakes discords ∈ ctx) :
    Safe w o ctx (speakerBody w clients room venueName category i urlKeys j s c).events := by
  unfold speakerBody
  split
  · trivial
  · next urlKey hkey =>
    split
    · exact safe_addLinksCalls w o ctx urlKey
    · next sideName hside =>
      refine safe_andThen (safe_addLinksCalls w o ctx urlKey) (fun c1 => ?_)
      refine safe_sendMessage clients c1 (Or.inl ⟨team, discords, urlKeys, snowflakes, j, urlKey,
        _, _, List.mem_append_left _ hctx.1, hdb, List.mem_append_left _ hctx.2, hparse, hs, hkey,
        fun hk => List.mem_append_right _ (mem_addLinksCalls urlKey hk), rfl⟩)

lemma safe_teamBody (w : World) (o : Options) (clients : List Hermes) (room : Room)
    (venueName : String) (category : Category) (i : Nat) (team : String) (c : Nat)
    (ctx : List Event) :
    Safe w o ctx (teamBody w o clients room venueName category i team c).events := by
  unfold teamBody
  split
  · simp [Run.abort, Safe, Good]
  · next discords urlKeys hdb =>
    split
    · simp [Run.abort, Safe, Good]
    · next snowflakes hparse =>
      refine safe_andThen (by simp [Run.emit, Safe, Good]) (fun c1 => ?_)
      refine safe_forRange
        (fun ctx1 => Event.participantsFromTeamId team ∈ ctx1 ∧
          Event.stringsToSnowflakes discords ∈ ctx1)
        (fun ctx1 more h => ⟨List.mem_append_left _ h.1, List.mem_append_left _ h.2⟩)
        snowflakes 0 _ c1 (fun t x c2 ctx1 hx hP => ?_) (by simp [Run.emit])
      rw [Nat.zero_add]
      exact safe_speakerBody w o clients room venueName category i team discords urlKeys
        snowflakes t x c2 ctx1 hdb hparse hx hP

lemma safe_judgeBody (w : World) (o : Options) (clients : List Hermes) (room : Room)
    (venueName : String) (category : Category) (discords urlKeys : List String) (j : Nat)
    (discord : String) (c : Nat) (ctx : List Event)
    (hdb : o.db.DiscordFromParticipantIds (judgeIds room) = .ok (discords, urlKeys))
    (hd : discords[j]? = some discord)
    (hctx : Event.discordFromParticipantIds (judgeIds room) ∈ ctx) :
    Safe w o ctx (judgeBody w clients room venueName category urlKeys j discord c).events := by
  unfold judgeBody
  split
  · split
    · trivial
    · simp [Run.emit, Safe, Good]
  · split
    · simp [Run.abort, Safe, Good]
    · next snowflake hparse =>
      split
      · simp [Run.abort, Safe, Good]
      · next urlKey hkey =>
        refine safe_andThen ⟨trivial, safe_addLinksCalls w o _ urlKey⟩ (fun c1 => ?_)
        refine safe_sendMessage clients c1 (Or.inr ⟨judgeIds room, discords, urlKeys, j, discord,
          urlKey, _, _, List.mem_append_left _ hctx, hdb, hd, ?_, hparse, hkey, fun hk => ?_, rfl⟩)
        · simp [Run.emit]
        · refine List.mem_append_right _ ?_
          simp only [Run.emit]
          exact List.mem_cons_of_mem _ (mem_addLinksCalls urlKey hk)

lemma safe_judgesPart (w : World) (o : Options) (clients : List Hermes) (room : Room)
    (venueName : String) (category : Category) (c : Nat) (ctx : List Event) :
    Safe w o ctx (judgesPart w o clients room venueName category c).events := by
  unfold judgesPart
  split
  · simp [Run.abort, Safe, Good]
  · next discords urlKeys hdb =>
    refine safe_andThen (by simp [Run.emit, Safe, Good]) (fun c1 => ?_)
    refine safe_forRange
      (fun ctx1 => Event.discordFromParticipantIds (judgeIds room) ∈ ctx1)
      (fun ctx1 more h => List.mem_append_left _ h)
      discords 0 _ c1 (fun t x c2 ctx1 hx hP => ?_) (by simp [Run.emit])
    rw [Nat.zero_add]
    exact safe_judgeBody w o clients room venueName category discords urlKeys t x c2 ctx1 hdb hx hP

lemma safe_verbose (w : World) (o : Options) (line : String) (c : Nat) (ctx : List Event) :
    Safe w o ctx (verbose o line c).events := by
  unfold verbose; split <;> simp [Run.emit, Safe, Good]

lemma safe_roomBody (w : World) (o : Options) (clients : List Hermes)
    (venueMap : String → Option String) (room : Room) (c : Nat) (ctx : List Event) :
    Safe w o ctx (roomBody w o clients venueMap room c).events := by
  unfold roomBody
  refine safe_andThen ?_ (fun c1 => ?_)
  · simp only [Run.emit]
    unfold lookupCalls; split <;> simp [Safe, Good]
  · refine safe_andThen ?_ (fun c2 => ?_)
    · exact safe_forRange (fun _ => True) (fun _ _ _ => trivial) room.TeamIds 0 _ c1
        (fun t x c3 ctx1 _ _ => safe_teamBody w o clients room _ _ _ x c3 ctx1) trivial
    · exact safe_andThen (safe_judgesPart w o clients room _ _ c2 _)
        (fun c3 => safe_verbose w o _ c3 _)

lemma safe_drawLoop (w : World) (o : Options) (tabbycat : Tabbycat) (rounds : List Round) :
    ∀ (rooms : List Room) (ctx : List Event), sentTo ctx = [] →
      Safe w o ctx (drawLoop tabbycat rounds rooms).1 := by
  induction rounds with
  | nil => intro rooms ctx _; trivial
  | cons round rest ih =>
    intro rooms ctx hctx
    unfold drawLoop
    split
    · exact ⟨hctx, trivial⟩
    · refine ⟨hctx, ih _ _ ?_⟩
      rw [sentTo_append, hctx]; rfl

lemma safe_waitCalls (w : World) (o : Options) (clients : List Hermes) :
    ∀ ctx, Safe w o ctx (waitCalls clients) := by
  unfold waitCalls
  induction List.range clients.length with
  | nil => intro ctx; trivial
  | cons k ks ih => intro ctx; exact ⟨trivial, ih _⟩

lemma sentTo_verbose (o : Options) (line : String) (c : Nat) :
    sentTo (verbose o line c).events = [] := by
  unfold verbose; split <;> rfl

lemma safe_main (w : World) (o : Options) : Safe w o [] (main w o).events := by
  unfold main
  split
  · next fetched e heq =>
    have := safe_drawLoop w o w.tabbycat o.round [] [] rfl
    rw [heq] at this
    exact this
  · next fetched rooms heq =>
    have hs := safe_drawLoop w o w.tabbycat o.round [] [] rfl
    have hf := sentTo_drawLoop w.tabbycat o.round []
    rw [heq] at hs hf
    refine safe_andThen hs (fun c0 => ?_)
    refine safe_andThen (safe_verbose w o _ c0 _) (fun c1 => ?_)
    have hquiet : sentTo (([] ++ (Run.emit fetched 0).events) ++
        (verbose o ("Fetched " ++ toString rooms.length ++ " pairings\n") c0).events) = [] := by
      simp only [sentTo_append, sentTo_verbose, Run.emit, hf]; rfl
    split
    · exact ⟨hquiet, trivial⟩
    · refine safe_andThen ⟨hquiet, trivial⟩ (fun c2 => ?_)
      refine safe_andThen (safe_verbose w o _ c2 _) (fun c3 => ?_)
      refine safe_andThen ?_ (fun c4 => safe_waitCalls w o _ _)
      exact safe_forRange (fun _ => True) (fun _ _ _ => trivial) rooms 0 _ c3
        (fun t x c5 ctx1 _ _ => safe_roomBody w o _ _ x c5 ctx1) trivial

/-- C8 (as amended): in every run of `main` a message is submitted only after
its own resolution: the calls made before it hold the directory lookup and
the handle parse that gave its recipient and, when the URL key is not empty,
the derivation of the private URL its body ends with; and the draw and the
venues are never fetched after a message has been submitted. -/
theorem resolution_then_dispatch (w : World) (o : Options) (pre post : List Event)
    (client : Nat) (snowflake : Snowflake) (message : String)
    (h : (main w o).events = pre ++ Event.sendMessage client snowflake message :: post) :
    Resolved w o pre snowflake message ∧
    (∀ round, Event.getDraw round ∉ post) ∧
    Event.getVenues ∉ post := by
  have hsafe := safe_main w o
  have hfetch : ∀ x ∈ post, ∃ l,
      Good w o ([] ++ (pre ++ Event.sendMessage client snowflake message :: l)) x := by
    intro x hx
    obtain ⟨p1, p2, hp⟩ := List.append_of_mem hx
    refine ⟨p1, safe_split (b := p2) hsafe ?_⟩
    rw [h, hp]
    simp
  have hsent : ∀ l : List Event,
      sentTo ([] ++ (pre ++ Event.sendMessage client snowflake message :: l)) ≠ [] := by
    intro l
    simp [sentTo_append, sentTo]
  refine ⟨?_, ?_, ?_⟩
  · have := safe_split hsafe h
    simpa [Good] using this
  · intro round hmem
    obtain ⟨l, hl⟩ := hfetch _ hmem
    exact hsent l hl
  · intro hmem
    obtain ⟨l, hl⟩ := hfetch _ hmem
    exact hsent l hl

set_option maxRecDepth 100000 in
/-- C8, witness: the second message of the sample run: the lookup of team t1,
the parse of its handles and the derivation of the private URL from k2 come
before it, after the first message was submitted. -/
theorem resolution_then_dispatch_witness :
    (main sampleWorld sampleOptions).events
      = [Event.getDraw "1", Event.getVenues, Event.lookup "Room A",
          Event.participantsFromTeamId "t1", Event.stringsToSnowflakes ["101", "102"],
          Event.privateUrlFromKey "k1",
          Event.sendMessage 0 101 ("In this round, you will be speaking in **Proposition** in room **Room A**."
            ++ "\n\nThe link to your Zoom room is https://zoom/a."
            ++ "\n\nYour private URL is https://tab/private/k1."),
          Event.privateUrlFromKey "k2"]
        ++ Event.sendMessage 1 102 ("In this round, you will be speaking in **Proposition** in room **Room A**."
            ++ "\n\nThe link to your Zoom room is https://zoom/a."
            ++ "\n\nYour private URL is https://tab/private/k2.")
          :: (main sampleWorld sampleOptions).events.drop 9 ∧
    (Resolved sampleWorld sampleOptions
        [Event.getDraw "1", Event.getVenues, Event.lookup "Room A",
          Event.participantsFromTeamId "t1", Event.stringsToSnowflakes ["101", "102"],
          Event.privateUrlFromKey "k1",
          Event.sendMessage 0 101 ("In this round, you will be speaking in **Proposition** in room **Room A**."
            ++ "\n\nThe link to your Zoom room is https://zoom/a."
            ++ "\n\nYour private URL is https://tab/private/k1."),
          Event.privateUrlFromKey "k2"]
        102 ("In this round, you will be speaking in **Proposition** in room **Room A**."
            ++ "\n\nThe link to your Zoom room is https://zoom/a."
            ++ "\n\nYour private URL is https://tab/private/k2.") ∧
      (∀ round, Event.getDraw round ∉ (main sampleWorld sampleOptions).events.drop 9) ∧
      Event.getVenues ∉ (main sampleWorld sampleOptions).events.drop 9) :=
  ⟨by decide,
    resolution_then_dispatch sampleWorld sampleOptions _ _ 1 102 _ (by decide)⟩

set_option maxRecDepth 100000 in
/-- C8, counterexample: the sample run (one room, two teams, four judges) makes
the calls listed, in this order: after the first message (to 101) has been
submitted it derives a private URL (k2), looks up team t2 and the judges, and
parses their handles. -/
theorem resolution_before_dispatch_counterexample :
    (main sampleWorld sampleOptions).events
      = [Event.getDraw "1", Event.getVenues, Event.lookup "Room A",
          Event.participantsFromTeamId "t1", Event.stringsToSnowflakes ["101", "102"],
          Event.privateUrlFromKey "k1",
          Event.sendMessage 0 101 ("In this round, you will be speaking in **Proposition** in room **Room A**."
            ++ "\n\nThe link to your Zoom room is https://zoom/a."
            ++ "\n\nYour private URL is https://tab/private/k1."),
          Event.privateUrlFromKey "k2",
          Event.sendMessage 1 102 ("In this round, you will be speaking in **Proposition** in room **Room A**."
            ++ "\n\nThe link to your Zoom room is https://zoom/a."
            ++ "\n\nYour private URL is https://tab/private/k2."),
          Event.participantsFromTeamId "t2", Event.stringsToSnowflakes ["201"],
          Event.sendMessage 2 201 ("In this round, you will be speaking in **Opposition** in room **Room A**."
            ++ "\n\nThe link to your Zoom room is https://zoom/a."),
          Event.discordFromParticipantIds ["c1", "p1", "p2", "j1"],
          Event.stringToSnowflake "301", Event.privateUrlFromKey "k5",
          Event.sendMessage 0 301 ("In this round, you will be judging as **the chair** in room **Room A**."
            ++ "\n\nThe link to your Zoom room is https://zoom/a."
            ++ "\n\nYour private URL is https://tab/private/k5."),
          Event.stringToSnowflake "302", Event.privateUrlFromKey "k6",
          Event.sendMessage 1 302 ("In this round, you will be judging as **a panellist** in room **Room A**."
            ++ "\n\nThe link to your Zoom room is https://zoom/a."
            ++ "\n\nYour private URL is https://tab/private/k6."),
          Event.stringToSnowflake "303", Event.privateUrlFromKey "k7",
          Event.sendMessage 2 303 ("In this round, you will be judging as **a panellist** in room **Room A**."
            ++ "\n\nThe link to your Zoom room is https://zoom/a."
            ++ "\n\nYour private URL is https://tab/private/k7."),
          Event.stringToSnowflake "304", Event.privateUrlFromKey "k8",
          Event.sendMessage 0 304 ("In this round, you will be judging as **a trainee** in room **Room A**."
            ++ "\n\nThe link to your Zoom room is https://zoom/a."
            ++ "\n\nYour private URL is https://tab/private/k8."),
          Event.wait 0, Event.wait 1, Event.wait 2] ∧
    ¬ ResolutionBeforeDispatch (main sampleWorld sampleOptions).events := by
  refine ⟨by decide, ?_⟩
  intro h
  have h1 := h ((main sampleWorld sampleOptions).events.take 6)
    (Event.sendMessage 0 101 ("In this round, you will be speaking in **Proposition** in room **Room A**."
            ++ "\n\nThe link to your Zoom room is https://zoom/a."
            ++ "\n\nYour private URL is https://tab/private/k1."))
    ((main sampleWorld sampleOptions).events.drop 7) (by decide) rfl
    (Event.participantsFromTeamId "t2") (by decide)
  exact absurd h1 (by decide)

/-- C1: the position label of the judge loop: index 0 is the chair, an index
from 1 to the number of panellists is a panellist, a larger index is a trainee;
index n (n at least 1) is a panellist and index n+1 a trainee. -/
theorem position_label (j n : Nat) :
    (j = 0 → position j n = "the chair") ∧
    (1 ≤ j → j ≤ n → position j n = "a panellist") ∧
    (n < j → position j n = "a trainee") ∧
    position 0 n = "the chair" ∧
    (1 ≤ n → position n n = "a panellist") ∧
    position (n + 1) n = "a trainee" := by
  refine ⟨?_, ?_, ?_, ?_, ?_, ?_⟩
  · intro h; simp [position, h]
  · intro h1 h2
    have h0 : j ≠ 0 := by omega
    have h3 : ¬ j > n := by omega
    simp [position, h0, h3]
  · intro h
    have h0 : j ≠ 0 := by omega
    simp [position, h0, h]
  · simp [position]
  · intro h
    have h0 : n ≠ 0 := by omega
    simp [position, h0]
  · simp [position]

/-- C3: the links text: empty when the venue URL and the URL key are both
empty, the meeting-link paragraph alone when only the key is empty, the
private-link paragraph alone when only the venue URL is empty, and the
meeting-link paragraph followed by the private-link paragraph otherwise. -/
theorem addLinks_compose (tabbycat : Tabbycat) (u t : String) :
    (u = "" → t = "" → addLinks tabbycat u t = "") ∧
    (u ≠ "" → t = "" → addLinks tabbycat u t = "\n\nThe link to your Zoom room is " ++ u ++ ".") ∧
    (u = "" → t ≠ "" →
      addLinks tabbycat u t = "\n\nYour private URL is " ++ tabbycat.PrivateUrlFromKey t ++ ".") ∧
    (u ≠ "" → t ≠ "" →
      addLinks tabbycat u t = ("\n\nThe link to your Zoom room is " ++ u ++ ".") ++
        ("\n\nYour private URL is " ++ tabbycat.PrivateUrlFromKey t ++ ".")) := by
  refine ⟨?_, ?_, ?_, ?_⟩
  · intro hu ht; simp [addLinks, hu, ht]
  · intro hu ht; simp [addLinks, hu, ht]
  · intro hu ht; simp [addLinks, hu, ht]
  · intro hu ht
    simp only [addLinks, ne_eq, hu, ht, not_false_eq_true, if_true, String.append_assoc]

end Roundmessenger
